import Mathlib

/-!
Verification of the Stutra schema-migration and referential-integrity
engine (scripts/db_manager.py and scripts/migrate_sections_enhanced.py)
against its natural-language specification.

The store is Firebase RTDB: a tree of JSON values addressed by path.  We
embed JSON values as the mutual inductive `Json` below (numbers are
modelled as integers: every numeric field the engine reads or writes is
an integer admission number or id).  A Python dict that the scripts
mutate field-by-field is embedded as an association list
`Rec = List (String × Json)` with the dict operations `pyGet` (`d.get`),
`pySet` (`d[k] = v`: replace in place, else append) and `pyDel`
(`del d[k]`), matching CPython's insertion-ordered dict semantics.
-/

namespace Stutra

mutual

inductive Json : Type where
  | null : Json
  | bool : Bool → Json
  | num : Int → Json
  | str : String → Json
  | arr : JsonArr → Json
  | obj : JsonObj → Json

inductive JsonArr : Type where
  | nil : JsonArr
  | cons : Json → JsonArr → JsonArr

inductive JsonObj : Type where
  | nil : JsonObj
  | cons : String → Json → JsonObj → JsonObj

end

deriving instance DecidableEq for Json

deriving instance DecidableEq for JsonArr

deriving instance DecidableEq for JsonObj

/-- Append one element at the end of a JSON array (Python `list.append`). -/
def JsonArr.push : JsonArr → Json → JsonArr
  | .nil, v => .cons v .nil
  | .cons x xs, v => .cons x (xs.push v)

/-- Membership test by value equality (Python `v in list`). -/
def JsonArr.holds : JsonArr → Json → Bool
  | .nil, _ => false
  | .cons x xs, v => x == v || xs.holds v

/-- Number of elements of a JSON array. -/
def JsonArr.size : JsonArr → Nat
  | .nil => 0
  | .cons _ xs => xs.size + 1

/-- First value stored under a key of a JSON object (Python `d[k]` / `k in d`). -/
def JsonObj.get : JsonObj → String → Option Json
  | .nil, _ => none
  | .cons k v fs, key => if k == key then some v else fs.get key

/-- A stored record: a Python dict embedded as an insertion-ordered
association list (CPython dicts preserve insertion order; assignment to
an existing key keeps its position). -/
abbrev Rec : Type := List (String × Json)

/-- `d.get(k)`: the value under `k`, if present (first occurrence). -/
def pyGet : Rec → String → Option Json
  | [], _ => none
  | (k, v) :: rest, key => if k = key then some v else pyGet rest key

/-- `d[k] = v`: replace the value in place if the key exists, else append. -/
def pySet : Rec → String → Json → Rec
  | [], key, v => [(key, v)]
  | (k, w) :: rest, key, v =>
    if k = key then (k, v) :: rest else (k, w) :: pySet rest key v

/-- `del d[k]`: drop the key. -/
def pyDel (r : Rec) (key : String) : Rec :=
  r.filter (fun p => p.1 ≠ key)

/-- Python truthiness of a JSON value (`if section_name:` in the source). -/
def pyTruthy : Json → Bool
  | .null => false
  | .bool b => b
  | .num n => n != 0
  | .str s => !s.isEmpty
  | .arr .nil => false
  | .arr _ => true
  | .obj .nil => false
  | .obj _ => true

/-- The whole database state the engine manages: the `students` and
`sections` collections, each a dict from generated key to record. -/
structure DB : Type where
  students : List (String × Rec)
  sections : List (String × Rec)
deriving DecidableEq

/-- Lookup of a record in a collection by its key (a `GET coll/{id}`). -/
def lookupRec (coll : List (String × Rec)) (id : String) : Option Rec :=
  match coll with
  | [] => none
  | (k, r) :: rest => if k = id then some r else lookupRec rest id

/-- `PUT coll/{id}/{field} value`: set one field of the record stored at
`id`, creating the record if the path was absent (Firebase creates
intermediate nodes on PUT). -/
def putRecField : List (String × Rec) → String → String → Json → List (String × Rec)
  | [], id, key, v => [(id, [(key, v)])]
  | (k, r) :: rest, id, key, v =>
    if k = id then (k, pySet r key v) :: rest else (k, r) :: putRecField rest id key v

/-!
### Section Index Maintainer (db_manager.py `_add_student_to_section`,
`_add_teacher_to_section`)

Python reads `sections/{section_id}` (an absent record becomes `{}`),
takes `section.get(field, [])`, appends the entity id if it is not in
the list, and PUTs the list back to `sections/{section_id}/{field}`.
A stored value under the field that is neither absent nor a list makes
the Python loop misbehave (`in`/`append` on a non-list); we embed that
branch as failure (`none`). -/

/-- `section.get(field, [])` restricted to list-shaped data: absent
means the empty list, a non-list value is a failure. -/
def getListField (r : Rec) (key : String) : Option JsonArr :=
  match pyGet r key with
  | none => some JsonArr.nil
  | some (Json.arr xs) => some xs
  | some _ => none

/-- Common body of the two Python functions, which differ only in the
membership field they maintain. -/
def addIdToSectionList (db : DB) (field entity_id section_id : String) : Option DB :=
  match getListField ((lookupRec db.sections section_id).getD []) field with
  | none => none
  | some xs =>
    if xs.holds (Json.str entity_id) then some db
    else some { db with
      sections := putRecField db.sections section_id field
        (Json.arr (xs.push (Json.str entity_id))) }

/-- db_manager.py `_add_student_to_section` (lines 149-156). -/
def _add_student_to_section (db : DB) (student_id section_id : String) : Option DB :=
  addIdToSectionList db "students" student_id section_id

/-- db_manager.py `_add_teacher_to_section` (lines 183-190). -/
def _add_teacher_to_section (db : DB) (teacher_id section_id : String) : Option DB :=
  addIdToSectionList db "teachers" teacher_id section_id

/-!
### `add_student` (db_manager.py lines 122-147)

`POST students` generates a fresh key; we pass the generated key
(`gen_id`) and the timestamp (`now`) in as parameters.  The loop over
the sections runs `_add_student_to_section` per section id; a failure
in one call aborts the run (the Python exception propagates out). -/

/-- Fold `_add_student_to_section` over the section ids, propagating failure. -/
def addToSections (student_id : String) : DB → List String → Option DB
  | db, [] => some db
  | db, s :: rest =>
    match _add_student_to_section db student_id s with
    | none => none
    | some db2 => addToSections student_id db2 rest

/-- The `student_data` dict `add_student` builds (lines 127-134). -/
def studentRecData (now nm adm photo : String) (sections1 : List String) : Rec :=
  [("name", Json.str nm),
   ("admissionNumber", Json.str adm),
   ("sections", Json.arr (sections1.foldl (fun a s => a.push (Json.str s)) JsonArr.nil)),
   ("photoUrl", Json.str photo),
   ("createdAt", Json.str now),
   ("updatedAt", Json.str now)]

/-- db_manager.py `add_student`: defaults the empty list to `["default"]`,
POSTs the record, then updates every section's student list.  Returns
the new state and the generated student id. -/
def add_student (db : DB) (gen_id now : String) (name admission_number : String)
    (sections0 : List String) (photo_url : String) : Option (DB × String) :=
  let sections1 := if sections0.isEmpty then ["default"] else sections0
  let db1 : DB := { db with students :=
    db.students ++ [(gen_id, studentRecData now name admission_number photo_url sections1)] }
  match addToSections gen_id db1 sections1 with
  | none => none
  | some db2 => some (db2, gen_id)

/-!
### `create_section` (db_manager.py lines 192-207)

`POST sections` with a fresh generated key; the name is stored as
given (the migrator passes whatever value the legacy `section` field
held, so the parameter is a `Json` value). -/

/-- A freshly created section record. -/
def newSectionRec (now : String) (name : Json) : Rec :=
  [("name", name),
   ("teachers", Json.arr JsonArr.nil),
   ("students", Json.arr JsonArr.nil),
   ("createdAt", Json.str now),
   ("updatedAt", Json.str now)]

/-- db_manager.py `create_section`: unconditionally POSTs a new record. -/
def create_section (db : DB) (gen_id now : String) (name : Json) : DB :=
  { db with sections := db.sections ++ [(gen_id, newSectionRec now name)] }

/-!
### Schema Migrator (db_manager.py `migrate_to_multisection`, lines 328-384)

The loop over `students` (dict shape) skips records that already carry a
list-valued `sections`, and rewrites every other record in place:
`sections := [record.get('section', 'default')]`, stamp `updatedAt`,
delete `section`, PUT the record back, and collect the old value into
`sections_to_create` (a set, embedded as an insertion-ordered
duplicate-free list; Python's set iteration order is arbitrary, no
claim depends on it).  Afterwards `create_section` runs for every
collected value that is truthy and differs from `'default'`. -/

/-- The migrator's test for an already-migrated record:
`'sections' in student_data and isinstance(student_data['sections'], list)`. -/
def isAlreadyMigrated (r : Rec) : Bool :=
  match pyGet r "sections" with
  | some (Json.arr _) => true
  | _ => false

/-- The legacy value the migrator reads: `student_data.get('section', 'default')`. -/
def oldSectionOf (r : Rec) : Json :=
  (pyGet r "section").getD (Json.str "default")

/-- One legacy record rewritten by the migrator (lines 355-363). -/
def migrateRecord (now : String) (r : Rec) : Rec :=
  pyDel (pySet (pySet r "sections" (Json.arr (JsonArr.cons (oldSectionOf r) JsonArr.nil)))
      "updatedAt" (Json.str now)) "section"

/-- The student collection after the migration loop: every record is
written back over its own key, so the collection maps record-wise. -/
def migrateStudents (now : String) (students : List (String × Rec)) : List (String × Rec) :=
  students.map (fun p => if isAlreadyMigrated p.2 then p else (p.1, migrateRecord now p.2))

/-- The keys the loop PUTs back (every not-already-migrated record). -/
def migrationWrites (students : List (String × Rec)) : List String :=
  (students.filter (fun p => !isAlreadyMigrated p.2)).map (fun p => p.1)

/-- Append a value unless already present (one `set.add`). -/
def dedupAdd (acc : List Json) (v : Json) : List Json :=
  if acc.contains v then acc else acc ++ [v]

/-- `sections_to_create` accumulated over the loop. -/
def sectionsToCreate (students : List (String × Rec)) : List Json :=
  (students.filter (fun p => !isAlreadyMigrated p.2)).foldl
    (fun acc p => dedupAdd acc (oldSectionOf p.2)) []

/-- `migrated_count` accumulated over the loop. -/
def migratedCount (students : List (String × Rec)) : Nat :=
  (students.filter (fun p => !isAlreadyMigrated p.2)).length

/-- The section-creation phase (lines 374-378): for every collected
value that is truthy and not `'default'`, `create_section` with the
next generated key. -/
def createCollectedSections (now : String) (gen : Nat → String) :
    DB → Nat → List Json → DB
  | db, _, [] => db
  | db, i, n :: rest =>
    if pyTruthy n && !(n == Json.str "default") then
      createCollectedSections now gen (create_section db (gen i) now n) (i + 1) rest
    else
      createCollectedSections now gen db i rest

/-- db_manager.py `migrate_to_multisection` on a dict-shaped student
collection (the pre-migration backup only writes a file and is embedded
separately as `backup_database`).  `gen` supplies the keys Firebase
generates for the created sections. -/
def migrate_to_multisection (db : DB) (now : String) (gen : Nat → String) : DB × Nat :=
  let db1 : DB := { db with students := migrateStudents now db.students }
  let db2 := createCollectedSections now gen db1 0 (sectionsToCreate db.students)
  (db2, migratedCount db.students)

/-!
### Integrity Validator (db_manager.py `validate_data_integrity`, lines 386-432)

The Python accumulates human-readable issue strings; the constructors
of `Issue` mirror those strings one for one.  The function returns
`len(issues) == 0`. -/

inductive Issue : Type where
  | studentMissingSections (id : String)
  | studentSectionsNotList (id : String)
  | studentSectionsEmpty (id : String)
  | sectionMissingName (id : String)
  | sectionMissingStudents (id : String)
  | sectionMissingTeachers (id : String)
deriving DecidableEq

/-- Issues of one student record (lines 401-408, in source order). -/
def studentRecordIssues (p : String × Rec) : List Issue :=
  match pyGet p.2 "sections" with
  | none => [Issue.studentMissingSections p.1]
  | some (Json.arr JsonArr.nil) => [Issue.studentSectionsEmpty p.1]
  | some (Json.arr _) => []
  | some _ => [Issue.studentSectionsNotList p.1]

/-- Issues of one section record (lines 411-418, in source order). -/
def sectionRecordIssues (p : String × Rec) : List Issue :=
  (if (pyGet p.2 "name").isNone then [Issue.sectionMissingName p.1] else [])
    ++ (if (pyGet p.2 "students").isNone then [Issue.sectionMissingStudents p.1] else [])
    ++ (if (pyGet p.2 "teachers").isNone then [Issue.sectionMissingTeachers p.1] else [])

/-- All issues the validator accumulates, students first. -/
def validationIssues (db : DB) : List Issue :=
  db.students.flatMap studentRecordIssues ++ db.sections.flatMap sectionRecordIssues

/-- db_manager.py `validate_data_integrity`: pass iff no issue. -/
def validate_data_integrity (db : DB) : Bool :=
  (validationIssues db).isEmpty

/-!
### Bulk import (migrate_sections_enhanced.py)

`read_csv_file` walks the CSV rows; a row with a missing field or a
non-numeric admission number is skipped with a warning and the loop
continues.  `check_existing_students` partitions the batch against the
existing student collection by id/admission-number collision;
`upload_section_to_firebase` writes the section metadata and PUTs each
surviving student.  The interactive "continue with non-conflicting
students only?" answer is the `contin` parameter; transport failures
are out of scope. -/

/-- The whitespace characters Python's `str.strip` removes. -/
def pyIsWs (c : Char) : Bool :=
  c = ' ' || c = '\t' || c = '\n' || c = '\r' || c = '\x0b' || c = '\x0c'

def dropLeadingWs : List Char → List Char
  | [] => []
  | c :: cs => if pyIsWs c then dropLeadingWs cs else c :: cs

/-- Python `s.strip()`: drop whitespace from both ends. -/
def pyStrip (s : String) : String :=
  String.mk ((dropLeadingWs ((dropLeadingWs s.data).reverse)).reverse)

/-- Python `s.lower()` on ASCII text. -/
def pyLower (s : String) : String :=
  String.mk (s.data.map Char.toLower)

/-- Python `s.replace(' ', '_')`: the pattern is a single character, so
this is a character map. -/
def pySpaceToUnderscore (s : String) : String :=
  String.mk (s.data.map (fun c => if c = ' ' then '_' else c))

/-- Value of a decimal digit list, if nonempty and all digits. -/
def digitsVal : List Char → Option Nat
  | [] => none
  | l =>
    if l.all (fun c => c.isDigit) then
      some (l.foldl (fun acc c => acc * 10 + (c.toNat - 48)) 0)
    else none

/-- Python `int(s)` on a stripped string: an optional sign and decimal
digits (grouping underscores and non-ASCII digits, which CPython also
accepts, do not occur in this data and are not modelled). -/
def pyInt (s : String) : Option Int :=
  match s.data with
  | '-' :: rest => (digitsVal rest).map (fun n => -(n : Int))
  | '+' :: rest => (digitsVal rest).map (fun n => (n : Int))
  | l => (digitsVal l).map (fun n => (n : Int))

/-- Python `str.title()` on ASCII text: the first cased character of
every run of letters is upper-cased, the rest lower-cased. -/
def pyTitleGo : Bool → List Char → List Char
  | _, [] => []
  | prevAlpha, c :: cs =>
    if c.isAlpha then
      (if prevAlpha then c.toLower else c.toUpper) :: pyTitleGo true cs
    else c :: pyTitleGo false cs

def pyTitle (s : String) : String :=
  String.mk (pyTitleGo false s.data)

/-- One CSV row as `csv.DictReader` hands it over: the three columns the
script reads (`S.NO`, `A.NO.`, `Name`). -/
structure CsvRow : Type where
  sno : String
  ano : String
  name : String
deriving DecidableEq

/-- The student dict `read_csv_file` builds (lines 123-134); every field
is present with exactly the source's constants. -/
structure UploadStudent : Type where
  id : Int
  name : String
  admission_number : String
  photo_url : String
  sections : List String
  status : String
  activity : String
  timer_end : Option Json
  notes : List Json
  lastResetDate : String
deriving DecidableEq

/-- One iteration of the `read_csv_file` loop: `none` means the row is
skipped (missing data, or `int(admission_no)` raising `ValueError`). -/
def parseCsvRow (row : CsvRow) : Option UploadStudent :=
  let serial_no := pyStrip row.sno
  let admission_no := pyStrip row.ano
  let nm := pyStrip row.name
  if serial_no.isEmpty || admission_no.isEmpty || nm.isEmpty then none
  else
    match pyInt admission_no with
    | none => none
    | some admission_id =>
      some { id := admission_id, name := pyTitle nm,
             admission_number := admission_no, photo_url := "",
             sections := [], status := "absent", activity := "",
             timer_end := none, notes := [], lastResetDate := "" }

/-- migrate_sections_enhanced.py `read_csv_file` (lines 93-145): the
skipping loop is exactly a `filterMap`. -/
def read_csv_file (rows : List CsvRow) : List UploadStudent :=
  rows.filterMap parseCsvRow

/-- Collision test of one candidate against the existing collection
(lines 159-176): the candidate's stringified id against the existing
keys, or its admission number against every existing dict-shaped
record's `admission_number` value. -/
def isConflict (existing : List (String × Json)) (s : UploadStudent) : Bool :=
  let existing_ids := existing.map (fun p => p.1)
  let existing_admission_numbers := existing.filterMap (fun p =>
    match p.2 with
    | Json.obj fs => fs.get "admission_number"
    | _ => none)
  existing_ids.contains (toString s.id)
    || existing_admission_numbers.contains (Json.str s.admission_number)

/-- The `conflict` partition the script reports. -/
def conflictsOf (existing : List (String × Json)) (students : List UploadStudent) :
    List UploadStudent :=
  students.filter (isConflict existing)

/-- The `new` partition. -/
def newStudentsOf (existing : List (String × Json)) (students : List UploadStudent) :
    List UploadStudent :=
  students.filter (fun s => !isConflict existing s)

/-- migrate_sections_enhanced.py `check_existing_students` (lines
147-194): an empty existing collection short-circuits; otherwise the
batch is partitioned, and when conflicts exist the whole batch is
dropped unless the caller answers `y` (`contin = true`), in which case
only the `new` partition survives. -/
def check_existing_students (existing : List (String × Json)) (contin : Bool)
    (students : List UploadStudent) : List UploadStudent :=
  if existing.isEmpty then students
  else
    let conflicts := conflictsOf existing students
    let new_students := newStudentsOf existing students
    if !conflicts.isEmpty && !contin then [] else new_students

/-- What one PUT of `upload_section_to_firebase`'s student loop writes:
`student['sections'] = [section_name]` then `PUT students/{id}`. -/
def uploadWrite (section_name : String) (s : UploadStudent) : String × UploadStudent :=
  (toString s.id, { s with sections := [section_name] })

/-- migrate_sections_enhanced.py `upload_section_to_firebase` (lines
196-243), with every PUT acknowledged: the section-metadata write under
the slug key, and the per-student writes in batch order.  An empty
surviving batch returns early with no write at all. -/
def upload_section_to_firebase (existing : List (String × Json)) (contin : Bool)
    (section_name : String) (students : List UploadStudent) :
    Option String × List (String × UploadStudent) :=
  let students_to_upload := check_existing_students existing contin students
  if students_to_upload.isEmpty then (none, [])
  else
    (some (pyLower (pySpaceToUnderscore section_name)),
     students_to_upload.map (uploadWrite section_name))

/-!
### Backup / Restore (db_manager.py lines 79-120)

`backup_database` GETs the store root and `json.dump`s it to a file;
`restore_database` `json.load`s the file and PUTs the value back at the
root.  The artifact is the serialized text; we embed `json.dump` /
`json.load` as `renderJson` / `parseDocument` over the `Json` tree.
The model renders compactly (JSON whitespace is insignificant and
`json.load` discards the pretty-printing `json.dump` adds) and escapes
the quote, the backslash and control characters in strings, as
`json.dump(…, ensure_ascii=False)` does. -/

/-- Lower-case hexadecimal digit. -/
def hexDigitChar (n : Nat) : Char :=
  if n < 10 then Char.ofNat (48 + n) else Char.ofNat (87 + n)

/-- Decimal digit. -/
def digitChar (n : Nat) : Char := Char.ofNat (48 + n)

/-- Decimal rendering of a natural number, most significant digit first. -/
def renderNat (n : Nat) : List Char :=
  if n = 0 then ['0'] else ((Nat.digits 10 n).map digitChar).reverse

/-- Decimal rendering of an integer. -/
def renderInt (i : Int) : List Char :=
  if i < 0 then '-' :: renderNat i.natAbs else renderNat i.natAbs

/-- JSON string escaping of one character. -/
def escapeChar (c : Char) : List Char :=
  if c = '"' then ['\\', '"']
  else if c = '\\' then ['\\', '\\']
  else if c.toNat < 32 then
    ['\\', 'u', '0', '0', hexDigitChar (c.toNat / 16), hexDigitChar (c.toNat % 16)]
  else [c]

def escapeList : List Char → List Char
  | [] => []
  | c :: cs => escapeChar c ++ escapeList cs

/-- A JSON string literal, quotes included. -/
def renderString (s : String) : List Char :=
  '"' :: (escapeList s.data ++ ['"'])

mutual

/-- Serialization of a JSON value (compact `json.dump`). -/
def renderJson : Json → List Char
  | Json.null => ['n', 'u', 'l', 'l']
  | Json.bool true => ['t', 'r', 'u', 'e']
  | Json.bool false => ['f', 'a', 'l', 's', 'e']
  | Json.num i => renderInt i
  | Json.str s => renderString s
  | Json.arr JsonArr.nil => ['[', ']']
  | Json.arr (JsonArr.cons x xs) => '[' :: (renderJson x ++ renderArrTail xs ++ [']'])
  | Json.obj JsonObj.nil => [ '\x7b', '\x7d']
  | Json.obj (JsonObj.cons k v fs) =>
    '\x7b' :: (renderString k ++ ':' :: renderJson v ++ renderObjTail fs ++ [ '\x7d'])

def renderArrTail : JsonArr → List Char
  | JsonArr.nil => []
  | JsonArr.cons x xs => ',' :: (renderJson x ++ renderArrTail xs)

def renderObjTail : JsonObj → List Char
  | JsonObj.nil => []
  | JsonObj.cons k v fs => ',' :: (renderString k ++ ':' :: renderJson v ++ renderObjTail fs)

end

/-- Value of a hexadecimal digit. -/
def hexVal (c : Char) : Option Nat :=
  if '0' ≤ c ∧ c ≤ '9' then some (c.toNat - 48)
  else if 'a' ≤ c ∧ c ≤ 'f' then some (c.toNat - 87)
  else if 'A' ≤ c ∧ c ≤ 'F' then some (c.toNat - 55)
  else none

/-- The single-character escapes of JSON. -/
def unescapeChar (c : Char) : Option Char :=
  if c = '"' then some '"'
  else if c = '\\' then some '\\'
  else if c = '/' then some '/'
  else if c = 'n' then some '\n'
  else if c = 't' then some '\t'
  else if c = 'r' then some '\r'
  else if c = 'b' then some (Char.ofNat 8)
  else if c = 'f' then some (Char.ofNat 12)
  else none

/-- The value of a `\uXXXX` escape's four hexadecimal digits. -/
def decodeHex4 (h1 h2 h3 h4 : Char) : Option Nat :=
  match hexVal h1, hexVal h2, hexVal h3, hexVal h4 with
  | some v1, some v2, some v3, some v4 =>
    some (((v1 * 16 + v2) * 16 + v3) * 16 + v4)
  | _, _, _, _ => none

/-- Body of a JSON string literal after the opening quote: the decoded
characters and the input past the closing quote. -/
def parseStringBody : List Char → Option (List Char × List Char)
  | [] => none
  | c :: cs =>
    if c = '"' then some ([], cs)
    else if c = '\\' then
      match cs with
      | [] => none
      | e :: cs2 =>
        if e = 'u' then
          match cs2 with
          | h1 :: h2 :: h3 :: h4 :: cs3 =>
            match decodeHex4 h1 h2 h3 h4 with
            | some n => (parseStringBody cs3).map (fun p => (Char.ofNat n :: p.1, p.2))
            | none => none
          | _ => none
        else
          match unescapeChar e with
          | some d => (parseStringBody cs2).map (fun p => (d :: p.1, p.2))
          | none => none
    else (parseStringBody cs).map (fun p => (c :: p.1, p.2))

/-- Longest digit prefix, as digit values most significant first. -/
def parseDigits : List Char → List Nat × List Char
  | [] => ([], [])
  | c :: cs =>
    if c.isDigit then
      let p := parseDigits cs
      ((c.toNat - 48) :: p.1, p.2)
    else ([], c :: cs)

/-- A big-endian digit list as a natural number. -/
def natFromDigits (ds : List Nat) : Nat :=
  Nat.ofDigits 10 ds.reverse

/-- A JSON integer literal: optional minus sign, then digits. -/
def parseIntLit (l : List Char) : Option (Int × List Char) :=
  match l with
  | [] => none
  | c :: cs =>
    if c = '-' then
      match parseDigits cs with
      | ([], _) => none
      | (ds, r) => some (-(natFromDigits ds : Int), r)
    else
      match parseDigits (c :: cs) with
      | ([], _) => none
      | (ds, r) => some ((natFromDigits ds : Int), r)

mutual

/-- Recursive-descent JSON value parser; the fuel bounds the nesting
and `parseDocument` supplies enough of it for any input. -/
def parseVal : Nat → List Char → Option (Json × List Char)
  | 0, _ => none
  | _ + 1, [] => none
  | fuel + 1, c :: cs =>
    if c = 'n' then
      match cs with
      | 'u' :: 'l' :: 'l' :: rest => some (Json.null, rest)
      | _ => none
    else if c = 't' then
      match cs with
      | 'r' :: 'u' :: 'e' :: rest => some (Json.bool true, rest)
      | _ => none
    else if c = 'f' then
      match cs with
      | 'a' :: 'l' :: 's' :: 'e' :: rest => some (Json.bool false, rest)
      | _ => none
    else if c = '"' then
      (parseStringBody cs).map (fun p => (Json.str (String.mk p.1), p.2))
    else if c = '[' then
      match cs with
      | [] => none
      | d :: ds =>
        if d = ']' then some (Json.arr JsonArr.nil, ds)
        else
          match parseVal fuel (d :: ds) with
          | some (v, rest2) =>
            match parseArrTail fuel rest2 with
            | some (vs, rest3) => some (Json.arr (JsonArr.cons v vs), rest3)
            | none => none
          | none => none
    else if c = '\x7b' then
      match cs with
      | '\x7d' :: rest => some (Json.obj JsonObj.nil, rest)
      | '"' :: rest =>
        match parseStringBody rest with
        | some (kcs, rest2) =>
          match rest2 with
          | ':' :: rest3 =>
            match parseVal fuel rest3 with
            | some (v, rest4) =>
              match parseObjTail fuel rest4 with
              | some (fs, rest5) => some (Json.obj (JsonObj.cons (String.mk kcs) v fs), rest5)
              | none => none
            | none => none
          | _ => none
        | none => none
      | _ => none
    else
      (parseIntLit (c :: cs)).map (fun p => (Json.num p.1, p.2))

/-- The elements of an array past the first, each preceded by a comma. -/
def parseArrTail : Nat → List Char → Option (JsonArr × List Char)
  | 0, _ => none
  | _ + 1, ']' :: rest => some (JsonArr.nil, rest)
  | fuel + 1, ',' :: rest =>
    match parseVal fuel rest with
    | some (v, rest2) =>
      match parseArrTail fuel rest2 with
      | some (vs, rest3) => some (JsonArr.cons v vs, rest3)
      | none => none
    | none => none
  | _ + 1, _ => none

/-- The members of an object past the first, each preceded by a comma. -/
def parseObjTail : Nat → List Char → Option (JsonObj × List Char)
  | 0, _ => none
  | _ + 1, '\x7d' :: rest => some (JsonObj.nil, rest)
  | fuel + 1, ',' :: '"' :: rest =>
    match parseStringBody rest with
    | some (kcs, rest2) =>
      match rest2 with
      | ':' :: rest3 =>
        match parseVal fuel rest3 with
        | some (v, rest4) =>
          match parseObjTail fuel rest4 with
          | some (fs, rest5) => some (JsonObj.cons (String.mk kcs) v fs, rest5)
          | none => none
        | none => none
      | _ => none
    | none => none
  | _ + 1, _ => none

end

/-- db_manager.py `backup_database` (lines 79-96): the artifact written
to the backup file is the serialized store root. -/
def backup_database (root : Json) : String :=
  String.mk (renderJson root)

/-- `json.load` of a whole document: the input must be consumed entirely. -/
def parseDocument (s : String) : Option Json :=
  match parseVal s.data.length s.data with
  | some (j, []) => some j
  | _ => none

/-- db_manager.py `restore_database` (lines 98-120), confirmation given:
the value the single `PUT` writes back at the root, or `none` when the
artifact does not parse. -/
def restore_database (artifact : String) : Option Json :=
  parseDocument artifact

/-!
### Auxiliary definitions used by the statements -/

/-- The elements of a JSON array as a Lean list. -/
def JsonArr.toList : JsonArr → List Json
  | .nil => []
  | .cons x xs => x :: xs.toList

/-- Whether the input starts with a decimal digit (the one token the
integer parser would keep consuming). -/
def headIsDigit : List Char → Bool
  | [] => false
  | c :: _ => c.isDigit

mutual

/-- Fuel needed to parse a rendered value. -/
def jsizeV : Json → Nat
  | Json.null => 1
  | Json.bool _ => 1
  | Json.num _ => 1
  | Json.str _ => 1
  | Json.arr JsonArr.nil => 1
  | Json.arr (JsonArr.cons x xs) => 1 + jsizeV x + jsizeA xs
  | Json.obj JsonObj.nil => 1
  | Json.obj (JsonObj.cons _ v fs) => 1 + jsizeV v + jsizeO fs

def jsizeA : JsonArr → Nat
  | JsonArr.nil => 1
  | JsonArr.cons x xs => 1 + jsizeV x + jsizeA xs

def jsizeO : JsonObj → Nat
  | JsonObj.nil => 1
  | JsonObj.cons _ v fs => 1 + jsizeV v + jsizeO fs

end

/-- The list stored under one membership field of one section, as the
maintainer reads it (absent record or field gives the empty list,
non-list data is a failure). -/
def sectionListState (db : DB) (section_id field : String) : Option JsonArr :=
  getListField ((lookupRec db.sections section_id).getD []) field

/-- The section records the creation phase appends, with the generated
keys it consumes: the characterization `createCollectedSections` is
proved against. -/
def createdSections (now : String) (gen : Nat → String) : Nat → List Json → List (String × Rec)
  | _, [] => []
  | i, n :: rest =>
    if pyTruthy n && !(n == Json.str "default") then
      (gen i, newSectionRec now n) :: createdSections now gen (i + 1) rest
    else createdSections now gen i rest

/-- How many stored sections carry a given `name` value. -/
def countNamed (secs : List (String × Rec)) (nm : Json) : Nat :=
  (secs.filter (fun p => pyGet p.2 "name" == some nm)).length

/-- The referential-integrity invariant of the spec (§3), violated:
some student `s` carries a section id `x` in its `sections` list whose
section record's `students` list does not contain `s`'s id (an absent
section record or a non-list `students` value also fails to contain it). -/
def hasRefIntegrityViolation (db : DB) : Bool :=
  db.students.any (fun p =>
    match pyGet p.2 "sections" with
    | some (Json.arr xs) => xs.toList.any (fun x =>
        match x with
        | Json.str secid =>
          (match lookupRec db.sections secid with
           | some sec =>
             match pyGet sec "students" with
             | some (Json.arr ys) => !(ys.holds (Json.str p.1))
             | _ => true
           | none => true)
        | _ => false)
    | _ => false)

/-- The shape condition on a student record that `validate_data_integrity`
actually enforces: a present, list-valued, nonempty `sections`. -/
def studentShapeOk (r : Rec) : Bool :=
  match pyGet r "sections" with
  | some (Json.arr (JsonArr.cons _ _)) => true
  | _ => false

/-- The shape condition on a section record that `validate_data_integrity`
actually enforces: `name`, `students` and `teachers` all present. -/
def sectionShapeOk (r : Rec) : Bool :=
  (pyGet r "name").isSome && (pyGet r "students").isSome && (pyGet r "teachers").isSome

/-!
## Theorems

### Dictionary and lookup lemmas -/

theorem pyGet_pySet_self (r : Rec) (k : String) (v : Json) :
    pyGet (pySet r k v) k = some v := by
  induction r with
  | nil => simp [pySet, pyGet]
  | cons p rest ih =>
    obtain ⟨k0, w⟩ := p
    by_cases h : k0 = k
    · simp [pySet, h, pyGet]
    · simp [pySet, h, pyGet, ih]

theorem pyGet_pySet_ne (r : Rec) (k k' : String) (v : Json) (h : k ≠ k') :
    pyGet (pySet r k v) k' = pyGet r k' := by
  induction r with
  | nil => simp [pySet, pyGet, h]
  | cons p rest ih =>
    obtain ⟨k0, w⟩ := p
    by_cases h0 : k0 = k
    · subst h0
      simp [pySet, pyGet, h]
    · simp [pySet, h0, pyGet, ih]

theorem pyGet_pyDel_self (r : Rec) (k : String) :
    pyGet (pyDel r k) k = none := by
  induction r with
  | nil => rfl
  | cons p rest ih =>
    obtain ⟨k0, w⟩ := p
    by_cases h0 : k0 = k
    · simpa [pyDel, h0] using ih
    · simpa [pyDel, List.filter_cons, h0, pyGet] using ih

theorem pyGet_pyDel_ne (r : Rec) (k k' : String) (h : k ≠ k') :
    pyGet (pyDel r k) k' = pyGet r k' := by
  induction r with
  | nil => rfl
  | cons p rest ih =>
    obtain ⟨k0, w⟩ := p
    by_cases h0 : k0 = k
    · subst h0
      simpa [pyDel, List.filter_cons, pyGet, h] using ih
    · by_cases h1 : k0 = k'
      · subst h1
        simp [pyDel, List.filter_cons, h0, pyGet, Ne.symm h]
      · simpa [pyDel, List.filter_cons, h0, pyGet, h1] using ih

/-!
### Migrator lemmas -/

theorem migrateRecord_sections (now : String) (r : Rec) :
    pyGet (migrateRecord now r) "sections"
      = some (Json.arr (JsonArr.cons (oldSectionOf r) JsonArr.nil)) := by
  unfold migrateRecord
  rw [pyGet_pyDel_ne _ _ _ (by decide), pyGet_pySet_ne _ _ _ _ (by decide),
    pyGet_pySet_self]

theorem migrateRecord_section (now : String) (r : Rec) :
    pyGet (migrateRecord now r) "section" = none := by
  unfold migrateRecord
  rw [pyGet_pyDel_self]

theorem migrateRecord_updatedAt (now : String) (r : Rec) :
    pyGet (migrateRecord now r) "updatedAt" = some (Json.str now) := by
  unfold migrateRecord
  rw [pyGet_pyDel_ne _ _ _ (by decide), pyGet_pySet_self]

theorem lookupRec_map_snd (g : Rec → Rec) (l : List (String × Rec)) (id : String) :
    lookupRec (l.map (fun p => (p.1, g p.2))) id = (lookupRec l id).map g := by
  induction l with
  | nil => rfl
  | cons p rest ih =>
    obtain ⟨k, r⟩ := p
    by_cases hk : k = id <;> simp [lookupRec, hk, ih]

theorem migrateStudents_eq_map (now : String) (sts : List (String × Rec)) :
    migrateStudents now sts
      = sts.map (fun p =>
          (p.1, if isAlreadyMigrated p.2 then p.2 else migrateRecord now p.2)) := by
  unfold migrateStudents
  congr 1
  funext p
  by_cases hm : isAlreadyMigrated p.2 <;> simp [hm]

theorem lookupRec_migrateStudents (now : String) (sts : List (String × Rec)) (id : String) :
    lookupRec (migrateStudents now sts) id
      = (lookupRec sts id).map
          (fun r => if isAlreadyMigrated r then r else migrateRecord now r) := by
  rw [migrateStudents_eq_map]
  exact lookupRec_map_snd
    (fun r => if isAlreadyMigrated r then r else migrateRecord now r) sts id

theorem migrationWrites_cons (k : String) (rec0 : Rec) (rest : List (String × Rec)) :
    migrationWrites ((k, rec0) :: rest)
      = (if isAlreadyMigrated rec0 then [] else [k]) ++ migrationWrites rest := by
  by_cases hmr : isAlreadyMigrated rec0 <;>
    simp [migrationWrites, List.filter_cons, hmr]

theorem mem_migrationWrites (sts : List (String × Rec)) (id : String) (r : Rec)
    (hfind : lookupRec sts id = some r) (hm : isAlreadyMigrated r = false) :
    id ∈ migrationWrites sts := by
  induction sts with
  | nil => cases hfind
  | cons p rest ih =>
    obtain ⟨k, rec0⟩ := p
    rw [migrationWrites_cons]
    unfold lookupRec at hfind
    by_cases hk : k = id
    · rw [if_pos hk] at hfind
      obtain rfl : rec0 = r := by injection hfind
      rw [if_neg (by simp [hm])]
      exact List.mem_append.mpr (Or.inl (by simp [hk]))
    · rw [if_neg hk] at hfind
      exact List.mem_append.mpr (Or.inr (ih hfind))

theorem migrationWrites_subset_keys (sts : List (String × Rec)) (id : String)
    (h : id ∈ migrationWrites sts) : id ∈ sts.map Prod.fst := by
  unfold migrationWrites at h
  obtain ⟨p, hp, rfl⟩ := List.mem_map.mp h
  exact List.mem_map.mpr ⟨p, (List.mem_filter.mp hp).1, rfl⟩

theorem not_mem_migrationWrites (sts : List (String × Rec)) (id : String) (r : Rec)
    (hnd : (sts.map Prod.fst).Nodup)
    (hfind : lookupRec sts id = some r) (hm : isAlreadyMigrated r = true) :
    id ∉ migrationWrites sts := by
  induction sts with
  | nil => cases hfind
  | cons p rest ih =>
    obtain ⟨k, rec0⟩ := p
    rw [migrationWrites_cons]
    unfold lookupRec at hfind
    rw [List.map_cons, List.nodup_cons] at hnd
    intro hmem
    rcases List.mem_append.mp hmem with h1 | h2
    · by_cases hmr : isAlreadyMigrated rec0
      · rw [if_pos hmr] at h1
        cases h1
      · rw [if_neg hmr] at h1
        have hk : k = id := (List.mem_singleton.mp h1).symm
        rw [if_pos hk] at hfind
        obtain rfl : rec0 = r := by injection hfind
        exact hmr (by simp [hm])
    · by_cases hk : k = id
      · subst hk
        exact hnd.1 (migrationWrites_subset_keys rest k h2)
      · rw [if_neg hk] at hfind
        exact ih hnd.2 hfind h2

/-!
### C1, C2, C3 -/

/-- C1: a record the Migrator classifies as legacy (a `section` field,
no list-valued `sections`) is stored after one run with `sections`
equal to the one-element list holding the old `section` value, without
a `section` field, with `updatedAt` stamped, and its key is written
back. -/
theorem migrator_converts_legacy_record (now : String) (sts : List (String × Rec))
    (id : String) (r : Rec) (v : String)
    (hfind : lookupRec sts id = some r)
    (hsec : pyGet r "section" = some (Json.str v))
    (hleg : isAlreadyMigrated r = false) :
    lookupRec (migrateStudents now sts) id = some (migrateRecord now r) ∧
    pyGet (migrateRecord now r) "sections"
      = some (Json.arr (JsonArr.cons (Json.str v) JsonArr.nil)) ∧
    pyGet (migrateRecord now r) "section" = none ∧
    pyGet (migrateRecord now r) "updatedAt" = some (Json.str now) ∧
    id ∈ migrationWrites sts := by
  have hold : oldSectionOf r = Json.str v := by
    unfold oldSectionOf
    rw [hsec]
    rfl
  refine ⟨?_, ?_, migrateRecord_section now r, migrateRecord_updatedAt now r,
    mem_migrationWrites sts id r hfind hleg⟩
  · rw [lookupRec_migrateStudents, hfind]
    simp [hleg]
  · rw [migrateRecord_sections, hold]

/-- C1 witness: the spec's own instance, a legacy record with
`section = "A"` ends with `sections == ["A"]`. -/
theorem migrator_converts_legacy_record_witness :
    lookupRec (migrateStudents "t0" [("s1", [("section", Json.str "A")])]) "s1"
      = some (migrateRecord "t0" [("section", Json.str "A")]) ∧
    pyGet (migrateRecord "t0" [("section", Json.str "A")]) "sections"
      = some (Json.arr (JsonArr.cons (Json.str "A") JsonArr.nil)) ∧
    pyGet (migrateRecord "t0" [("section", Json.str "A")]) "section" = none ∧
    pyGet (migrateRecord "t0" [("section", Json.str "A")]) "updatedAt"
      = some (Json.str "t0") ∧
    "s1" ∈ migrationWrites [("s1", [("section", Json.str "A")])] :=
  migrator_converts_legacy_record "t0" [("s1", [("section", Json.str "A")])]
    "s1" [("section", Json.str "A")] "A" (by decide) (by decide) (by decide)

/-- C2: a record that already carries a list-valued `sections` field is
skipped by the Migrator: its key is not written back and the stored
record is unchanged. -/
theorem migrator_skips_migrated_record (now : String) (sts : List (String × Rec))
    (id : String) (r : Rec) (xs : JsonArr)
    (hnd : (sts.map Prod.fst).Nodup)
    (hfind : lookupRec sts id = some r)
    (hmig : pyGet r "sections" = some (Json.arr xs)) :
    lookupRec (migrateStudents now sts) id = some r ∧
    id ∉ migrationWrites sts := by
  have hm : isAlreadyMigrated r = true := by
    unfold isAlreadyMigrated
    rw [hmig]
  constructor
  · rw [lookupRec_migrateStudents, hfind]
    simp [hm]
  · exact not_mem_migrationWrites sts id r hnd hfind hm

/-- C2 witness: a second run over an already-migrated record is a no-op. -/
theorem migrator_skips_migrated_record_witness :
    lookupRec (migrateStudents "t1"
        [("s1", [("sections", Json.arr (JsonArr.cons (Json.str "A") JsonArr.nil))])]) "s1"
      = some [("sections", Json.arr (JsonArr.cons (Json.str "A") JsonArr.nil))] ∧
    "s1" ∉ migrationWrites
        [("s1", [("sections", Json.arr (JsonArr.cons (Json.str "A") JsonArr.nil))])] :=
  migrator_skips_migrated_record "t1"
    [("s1", [("sections", Json.arr (JsonArr.cons (Json.str "A") JsonArr.nil))])]
    "s1" [("sections", Json.arr (JsonArr.cons (Json.str "A") JsonArr.nil))]
    (JsonArr.cons (Json.str "A") JsonArr.nil) (by decide) (by decide) (by decide)

/-- C3 counterexample: a student record with neither a `section` nor a
`sections` field is not reported and skipped — `migrate_to_multisection`
silently coerces it into a migrated record with the invented value
`sections == ["default"]` and writes it back. -/
theorem migrator_coerces_malformed_counterexample :
    lookupRec (migrateStudents "t0" [("s1", [("name", Json.str "X")])]) "s1"
      = some [("name", Json.str "X"),
              ("sections", Json.arr (JsonArr.cons (Json.str "default") JsonArr.nil)),
              ("updatedAt", Json.str "t0")] ∧
    "s1" ∈ migrationWrites [("s1", [("name", Json.str "X")])] := by
  decide

/-- C3 amended: a raw student record with no `section` field and no
list-valued `sections` field is not classified as malformed or
reported by the Migrator — it is treated as legacy, coerced to
`sections == ["default"]` (the invented sentinel), and written back. -/
theorem migrator_coerces_malformed (now : String) (sts : List (String × Rec))
    (id : String) (r : Rec)
    (hfind : lookupRec sts id = some r)
    (hnosec : pyGet r "section" = none)
    (hleg : isAlreadyMigrated r = false) :
    lookupRec (migrateStudents now sts) id = some (migrateRecord now r) ∧
    pyGet (migrateRecord now r) "sections"
      = some (Json.arr (JsonArr.cons (Json.str "default") JsonArr.nil)) ∧
    id ∈ migrationWrites sts := by
  have hold : oldSectionOf r = Json.str "default" := by
    unfold oldSectionOf
    rw [hnosec]
    rfl
  refine ⟨?_, ?_, mem_migrationWrites sts id r hfind hleg⟩
  · rw [lookupRec_migrateStudents, hfind]
    simp [hleg]
  · rw [migrateRecord_sections, hold]

/-- C3 amended witness: the coercion of a record with neither field. -/
theorem migrator_coerces_malformed_witness :
    lookupRec (migrateStudents "t0" [("s1", [("name", Json.str "X")])]) "s1"
      = some (migrateRecord "t0" [("name", Json.str "X")]) ∧
    pyGet (migrateRecord "t0" [("name", Json.str "X")]) "sections"
      = some (Json.arr (JsonArr.cons (Json.str "default") JsonArr.nil)) ∧
    "s1" ∈ migrationWrites [("s1", [("name", Json.str "X")])] :=
  migrator_coerces_malformed "t0" [("s1", [("name", Json.str "X")])] "s1"
    [("name", Json.str "X")] (by decide) (by decide) (by decide)

/-!
### Section Index Maintainer lemmas and C5, C10 -/

theorem JsonArr.holds_push_self : ∀ (xs : JsonArr) (v : Json), (xs.push v).holds v = true
  | .nil, v => by simp [JsonArr.push, JsonArr.holds]
  | .cons x xs, v => by
    simp [JsonArr.push, JsonArr.holds, JsonArr.holds_push_self xs v]

theorem JsonArr.size_push : ∀ (xs : JsonArr) (v : Json), (xs.push v).size = xs.size + 1
  | .nil, _ => rfl
  | .cons x xs, v => by simp [JsonArr.push, JsonArr.size, JsonArr.size_push xs v]

theorem size_foldl_push (l : List String) (a : JsonArr) :
    (l.foldl (fun a s => a.push (Json.str s)) a).size = a.size + l.length := by
  induction l generalizing a with
  | nil => simp
  | cons s rest ih =>
    rw [List.foldl_cons, ih, JsonArr.size_push, List.length_cons]
    omega

theorem lookupRec_putRecField_self (coll : List (String × Rec)) (id k : String) (v : Json) :
    lookupRec (putRecField coll id k v) id
      = some (pySet ((lookupRec coll id).getD []) k v) := by
  induction coll with
  | nil => simp [putRecField, lookupRec, pySet]
  | cons p rest ih =>
    obtain ⟨k0, r⟩ := p
    by_cases h : k0 = id
    · simp [putRecField, h, lookupRec]
    · simp [putRecField, h, lookupRec, ih]

theorem addIdToSectionList_spec (db : DB) (field eid secid : String) (xs : JsonArr)
    (hs : sectionListState db secid field = some xs) :
    ∃ db2, addIdToSectionList db field eid secid = some db2 ∧
      sectionListState db2 secid field
        = some (if xs.holds (Json.str eid) then xs else xs.push (Json.str eid)) ∧
      (xs.holds (Json.str eid) = true → db2 = db) ∧
      addIdToSectionList db2 field eid secid = some db2 ∧
      db2.students = db.students := by
  have hs' : getListField ((lookupRec db.sections secid).getD []) field = some xs := hs
  by_cases hmem : xs.holds (Json.str eid)
  · refine ⟨db, ?_, ?_, fun _ => rfl, ?_, rfl⟩
    · unfold addIdToSectionList
      rw [hs']
      simp [hmem]
    · rw [hs]
      simp [hmem]
    · unfold addIdToSectionList
      rw [hs']
      simp [hmem]
  · have hstate : getListField
        ((lookupRec (putRecField db.sections secid field
          (Json.arr (xs.push (Json.str eid)))) secid).getD []) field
        = some (xs.push (Json.str eid)) := by
      rw [lookupRec_putRecField_self]
      unfold getListField
      rw [Option.getD_some, pyGet_pySet_self]
    refine ⟨DB.mk db.students (putRecField db.sections secid field
      (Json.arr (xs.push (Json.str eid)))), ?_, ?_, ?_, ?_, rfl⟩
    · unfold addIdToSectionList
      rw [hs']
      simp [hmem]
    · unfold sectionListState
      rw [hstate]
      simp [hmem]
    · intro h
      exact absurd h (by simp [hmem])
    · unfold addIdToSectionList
      rw [hstate]
      simp [JsonArr.holds_push_self]

/-- C5: the add-to-section operation of the Section Index Maintainer,
for students and teachers alike, reads the section (absent meaning an
empty membership list), appends the entity id only when absent by
value equality, writes the list back, and is idempotent: with the
entity already present the store is returned unchanged, and a repeated
call returns its own input, so no duplicate is ever introduced. -/
theorem section_index_add_idempotent (dbS dbT : DB) (sid ssec tid tsec : String)
    (xs ys : JsonArr)
    (hs : sectionListState dbS ssec "students" = some xs)
    (ht : sectionListState dbT tsec "teachers" = some ys) :
    (∃ db2, _add_student_to_section dbS sid ssec = some db2 ∧
      sectionListState db2 ssec "students"
        = some (if xs.holds (Json.str sid) then xs else xs.push (Json.str sid)) ∧
      (xs.holds (Json.str sid) = true → db2 = dbS) ∧
      _add_student_to_section db2 sid ssec = some db2) ∧
    (∃ db3, _add_teacher_to_section dbT tid tsec = some db3 ∧
      sectionListState db3 tsec "teachers"
        = some (if ys.holds (Json.str tid) then ys else ys.push (Json.str tid)) ∧
      (ys.holds (Json.str tid) = true → db3 = dbT) ∧
      _add_teacher_to_section db3 tid tsec = some db3) := by
  constructor
  · obtain ⟨db2, h1, h2, h3, h4, _⟩ := addIdToSectionList_spec dbS "students" sid ssec xs hs
    exact ⟨db2, h1, h2, h3, h4⟩
  · obtain ⟨db3, h1, h2, h3, h4, _⟩ := addIdToSectionList_spec dbT "teachers" tid tsec ys ht
    exact ⟨db3, h1, h2, h3, h4⟩

/-- C5 witness: adding to an absent section record treats it as empty
and a repeated add is a no-op. -/
theorem section_index_add_idempotent_witness :
    (∃ db2, _add_student_to_section ⟨[], []⟩ "s1" "secA" = some db2 ∧
      sectionListState db2 "secA" "students"
        = some (if JsonArr.nil.holds (Json.str "s1") then JsonArr.nil
                else JsonArr.nil.push (Json.str "s1")) ∧
      (JsonArr.nil.holds (Json.str "s1") = true → db2 = (⟨[], []⟩ : DB)) ∧
      _add_student_to_section db2 "s1" "secA" = some db2) ∧
    (∃ db3, _add_teacher_to_section ⟨[], []⟩ "t1" "secB" = some db3 ∧
      sectionListState db3 "secB" "teachers"
        = some (if JsonArr.nil.holds (Json.str "t1") then JsonArr.nil
                else JsonArr.nil.push (Json.str "t1")) ∧
      (JsonArr.nil.holds (Json.str "t1") = true → db3 = (⟨[], []⟩ : DB)) ∧
      _add_teacher_to_section db3 "t1" "secB" = some db3) :=
  section_index_add_idempotent ⟨[], []⟩ ⟨[], []⟩ "s1" "secA" "t1" "secB"
    JsonArr.nil JsonArr.nil (by decide) (by decide)

theorem lookupRec_append_right (l : List (String × Rec)) (id : String) (r : Rec)
    (h : lookupRec l id = none) : lookupRec (l ++ [(id, r)]) id = some r := by
  induction l with
  | nil => simp [lookupRec]
  | cons p rest ih =>
    obtain ⟨k, w⟩ := p
    unfold lookupRec at h
    rw [List.cons_append]
    unfold lookupRec
    by_cases hk : k = id
    · rw [if_pos hk] at h
      cases h
    · rw [if_neg hk] at h ⊢
      exact ih h

theorem addIdToSectionList_students_eq (db db' : DB) (f e s : String)
    (h : addIdToSectionList db f e s = some db') : db'.students = db.students := by
  unfold addIdToSectionList at h
  cases hg : getListField ((lookupRec db.sections s).getD []) f with
  | none =>
    simp only [hg] at h
    cases h
  | some xs =>
    simp only [hg] at h
    split_ifs at h <;> (injection h with h1; rw [← h1])

theorem addToSections_students (sid : String) (l : List String) (db db2 : DB)
    (h : addToSections sid db l = some db2) : db2.students = db.students := by
  induction l generalizing db with
  | nil =>
    unfold addToSections at h
    injection h with h1
    rw [← h1]
  | cons s rest ih =>
    unfold addToSections at h
    cases hh : _add_student_to_section db sid s with
    | none =>
      rw [hh] at h
      cases h
    | some dbm =>
      rw [hh] at h
      rw [ih dbm h, addIdToSectionList_students_eq db dbm "students" sid s hh]

/-- C10: `add_student` called with an empty sections list substitutes
the sentinel `["default"]`: the stored record carries
`sections == ["default"]` and the generated student id is appended to
section `"default"`'s membership list; and for every input, the record
`add_student` writes never has an empty `sections` list. -/
theorem add_student_defaults_and_nonempty (db : DB) (gen_id now nm adm photo : String)
    (xs : JsonArr)
    (hfresh : lookupRec db.students gen_id = none)
    (hs : sectionListState db "default" "students" = some xs) :
    (∃ db2, add_student db gen_id now nm adm [] photo = some (db2, gen_id) ∧
      (∃ r, lookupRec db2.students gen_id = some r ∧
        pyGet r "sections"
          = some (Json.arr (JsonArr.cons (Json.str "default") JsonArr.nil))) ∧
      sectionListState db2 "default" "students"
        = some (if xs.holds (Json.str gen_id) then xs else xs.push (Json.str gen_id)) ∧
      ((sectionListState db2 "default" "students").getD JsonArr.nil).holds
          (Json.str gen_id) = true) ∧
    (∀ secs db3 sid, add_student db gen_id now nm adm secs photo = some (db3, sid) →
      ∃ r ys, lookupRec db3.students gen_id = some r ∧
        pyGet r "sections" = some (Json.arr ys) ∧ ys ≠ JsonArr.nil) := by
  have hgetsec : ∀ l : List String,
      pyGet (studentRecData now nm adm photo l) "sections"
        = some (Json.arr (l.foldl (fun a s => a.push (Json.str s)) JsonArr.nil)) := by
    intro l
    simp [studentRecData, pyGet]
  constructor
  · have hs1 : sectionListState
        (DB.mk (db.students ++ [(gen_id, studentRecData now nm adm photo ["default"])])
          db.sections) "default" "students" = some xs := hs
    obtain ⟨db2, hrun2, hstate, _, _, hstud⟩ :=
      addIdToSectionList_spec _ "students" gen_id "default" xs hs1
    have hform : add_student db gen_id now nm adm [] photo
        = (match addToSections gen_id
            (DB.mk (db.students ++ [(gen_id, studentRecData now nm adm photo ["default"])])
              db.sections) ["default"] with
          | none => none
          | some d => some (d, gen_id)) := rfl
    have haddts : addToSections gen_id
        (DB.mk (db.students ++ [(gen_id, studentRecData now nm adm photo ["default"])])
          db.sections) ["default"] = some db2 := by
      unfold addToSections _add_student_to_section
      rw [hrun2]
      rfl
    refine ⟨db2, ?_, ?_, hstate, ?_⟩
    · rw [hform, haddts]
    · refine ⟨studentRecData now nm adm photo ["default"], ?_, ?_⟩
      · rw [hstud]
        exact lookupRec_append_right db.students gen_id _ hfresh
      · exact hgetsec ["default"]
    · rw [hstate]
      by_cases hmem : xs.holds (Json.str gen_id) <;>
        simp [hmem, JsonArr.holds_push_self]
  · intro secs db3 sid h
    have hform : add_student db gen_id now nm adm secs photo
        = (match addToSections gen_id
            (DB.mk (db.students ++ [(gen_id, studentRecData now nm adm photo
                (if secs.isEmpty then ["default"] else secs))]) db.sections)
            (if secs.isEmpty then ["default"] else secs) with
          | none => none
          | some d => some (d, gen_id)) := rfl
    rw [hform] at h
    cases haddo : addToSections gen_id
        (DB.mk (db.students ++ [(gen_id, studentRecData now nm adm photo
            (if secs.isEmpty then ["default"] else secs))]) db.sections)
        (if secs.isEmpty then ["default"] else secs) with
    | none =>
      rw [haddo] at h
      cases h
    | some db2 =>
      rw [haddo] at h
      simp only [Option.some.injEq, Prod.mk.injEq] at h
      obtain ⟨rfl, rfl⟩ := h
      have hstud3 := addToSections_students gen_id _ _ _ haddo
      refine ⟨studentRecData now nm adm photo (if secs.isEmpty then ["default"] else secs),
        (if secs.isEmpty then ["default"] else secs).foldl
          (fun a s => a.push (Json.str s)) JsonArr.nil, ?_, ?_, ?_⟩
      · rw [hstud3]
        exact lookupRec_append_right db.students gen_id _ hfresh
      · exact hgetsec (if secs.isEmpty then ["default"] else secs)
      · intro hnil
        have hsz := size_foldl_push (if secs.isEmpty then ["default"] else secs) JsonArr.nil
        rw [hnil] at hsz
        have hlen : (if secs.isEmpty then ["default"] else secs).length ≠ 0 := by
          by_cases he : secs.isEmpty
          · simp [he]
          · simp [he]
            intro hc
            exact he (by simp [hc])
        exact hlen (by simpa [JsonArr.size] using hsz.symm)

/-- C10 witness: `add_student` on an empty store with no sections. -/
theorem add_student_defaults_and_nonempty_witness :
    ((∃ db2, add_student ⟨[], []⟩ "g1" "t" "Jo" "7" [] "" = some (db2, "g1") ∧
      (∃ r, lookupRec db2.students "g1" = some r ∧
        pyGet r "sections"
          = some (Json.arr (JsonArr.cons (Json.str "default") JsonArr.nil))) ∧
      sectionListState db2 "default" "students"
        = some (if JsonArr.nil.holds (Json.str "g1") then JsonArr.nil
                else JsonArr.nil.push (Json.str "g1")) ∧
      ((sectionListState db2 "default" "students").getD JsonArr.nil).holds
          (Json.str "g1") = true) ∧
    (∀ secs db3 sid, add_student ⟨[], []⟩ "g1" "t" "Jo" "7" secs "" = some (db3, sid) →
      ∃ r ys, lookupRec db3.students "g1" = some r ∧
        pyGet r "sections" = some (Json.arr ys) ∧ ys ≠ JsonArr.nil)) :=
  add_student_defaults_and_nonempty ⟨[], []⟩ "g1" "t" "Jo" "7" ""
    JsonArr.nil (by decide) (by decide)

/-!
### Conflict Resolver: C4 -/

/-- C4: against a batch where exactly 2 of 5 candidates collide with the
existing collection (by id or admission number), the default (abort)
answer rejects the whole batch and uploads nothing, while the continue
answer uploads exactly the 3 non-colliding candidates, the 2 conflicts
being the reported, skipped partition. -/
theorem isConflict_nil (s : UploadStudent) : isConflict [] s = false := rfl

theorem conflict_resolver_partition (existing : List (String × Json))
    (students : List UploadStudent) (section_name : String)
    (h5 : students.length = 5)
    (h2 : (conflictsOf existing students).length = 2) :
    (check_existing_students existing false students = [] ∧
     (upload_section_to_firebase existing false section_name students).2 = []) ∧
    (check_existing_students existing true students = newStudentsOf existing students ∧
     (newStudentsOf existing students).length = 3 ∧
     (upload_section_to_firebase existing true section_name students).2
       = (newStudentsOf existing students).map (uploadWrite section_name)) := by
  have hne : existing.isEmpty = false := by
    cases existing with
    | nil =>
      exfalso
      have hz : conflictsOf [] students = [] := by
        unfold conflictsOf
        induction students with
        | nil => rfl
        | cons a l ih => simp [List.filter_cons, isConflict_nil, ih]
      rw [hz] at h2
      cases h2
    | cons p rest => rfl
  have hcne : (conflictsOf existing students).isEmpty = false := by
    cases hc : conflictsOf existing students with
    | nil =>
      rw [hc] at h2
      cases h2
    | cons a l => rfl
  have habort : check_existing_students existing false students = [] := by
    unfold check_existing_students
    rw [hne]
    simp [hcne]
  have hsum : students.length = (students.filter (isConflict existing)).length
      + (students.filter (fun s => !isConflict existing s)).length :=
    List.length_eq_length_filter_add _
  have hlen : (newStudentsOf existing students).length = 3 := by
    unfold conflictsOf at h2
    unfold newStudentsOf
    omega
  have hcont : check_existing_students existing true students
      = newStudentsOf existing students := by
    unfold check_existing_students
    rw [hne]
    simp
  have hnne : (newStudentsOf existing students).isEmpty = false := by
    cases hn : newStudentsOf existing students with
    | nil =>
      rw [hn] at hlen
      cases hlen
    | cons a l => rfl
  refine ⟨⟨habort, ?_⟩, hcont, hlen, ?_⟩
  · unfold upload_section_to_firebase
    rw [habort]
    rfl
  · unfold upload_section_to_firebase
    rw [hcont]
    simp [hnne]

/-- C4 witness: 5 CSV candidates of which exactly 2 collide by admission
number with the existing collection. -/
theorem conflict_resolver_partition_witness :
    (check_existing_students
        [("k1", Json.obj (JsonObj.cons "admission_number" (Json.str "101") JsonObj.nil)),
         ("k2", Json.obj (JsonObj.cons "admission_number" (Json.str "202") JsonObj.nil))]
        false
        (read_csv_file [⟨"1", "101", "a"⟩, ⟨"2", "102", "b"⟩, ⟨"3", "202", "c"⟩,
          ⟨"4", "104", "d"⟩, ⟨"5", "105", "e"⟩]) = [] ∧
     (upload_section_to_firebase
        [("k1", Json.obj (JsonObj.cons "admission_number" (Json.str "101") JsonObj.nil)),
         ("k2", Json.obj (JsonObj.cons "admission_number" (Json.str "202") JsonObj.nil))]
        false "XI A"
        (read_csv_file [⟨"1", "101", "a"⟩, ⟨"2", "102", "b"⟩, ⟨"3", "202", "c"⟩,
          ⟨"4", "104", "d"⟩, ⟨"5", "105", "e"⟩])).2 = []) ∧
    (check_existing_students
        [("k1", Json.obj (JsonObj.cons "admission_number" (Json.str "101") JsonObj.nil)),
         ("k2", Json.obj (JsonObj.cons "admission_number" (Json.str "202") JsonObj.nil))]
        true
        (read_csv_file [⟨"1", "101", "a"⟩, ⟨"2", "102", "b"⟩, ⟨"3", "202", "c"⟩,
          ⟨"4", "104", "d"⟩, ⟨"5", "105", "e"⟩])
      = newStudentsOf
          [("k1", Json.obj (JsonObj.cons "admission_number" (Json.str "101") JsonObj.nil)),
           ("k2", Json.obj (JsonObj.cons "admission_number" (Json.str "202") JsonObj.nil))]
          (read_csv_file [⟨"1", "101", "a"⟩, ⟨"2", "102", "b"⟩, ⟨"3", "202", "c"⟩,
            ⟨"4", "104", "d"⟩, ⟨"5", "105", "e"⟩]) ∧
     (newStudentsOf
          [("k1", Json.obj (JsonObj.cons "admission_number" (Json.str "101") JsonObj.nil)),
           ("k2", Json.obj (JsonObj.cons "admission_number" (Json.str "202") JsonObj.nil))]
          (read_csv_file [⟨"1", "101", "a"⟩, ⟨"2", "102", "b"⟩, ⟨"3", "202", "c"⟩,
            ⟨"4", "104", "d"⟩, ⟨"5", "105", "e"⟩])).length = 3 ∧
     (upload_section_to_firebase
        [("k1", Json.obj (JsonObj.cons "admission_number" (Json.str "101") JsonObj.nil)),
         ("k2", Json.obj (JsonObj.cons "admission_number" (Json.str "202") JsonObj.nil))]
        true "XI A"
        (read_csv_file [⟨"1", "101", "a"⟩, ⟨"2", "102", "b"⟩, ⟨"3", "202", "c"⟩,
          ⟨"4", "104", "d"⟩, ⟨"5", "105", "e"⟩])).2
       = (newStudentsOf
            [("k1", Json.obj (JsonObj.cons "admission_number" (Json.str "101") JsonObj.nil)),
             ("k2", Json.obj (JsonObj.cons "admission_number" (Json.str "202") JsonObj.nil))]
            (read_csv_file [⟨"1", "101", "a"⟩, ⟨"2", "102", "b"⟩, ⟨"3", "202", "c"⟩,
              ⟨"4", "104", "d"⟩, ⟨"5", "105", "e"⟩])).map (uploadWrite "XI A")) :=
  conflict_resolver_partition
    [("k1", Json.obj (JsonObj.cons "admission_number" (Json.str "101") JsonObj.nil)),
     ("k2", Json.obj (JsonObj.cons "admission_number" (Json.str "202") JsonObj.nil))]
    (read_csv_file [⟨"1", "101", "a"⟩, ⟨"2", "102", "b"⟩, ⟨"3", "202", "c"⟩,
      ⟨"4", "104", "d"⟩, ⟨"5", "105", "e"⟩]) "XI A" (by decide) (by decide)

/-!
### Bulk import resilience: C7 -/

theorem parseCsvRow_none_of_badAno (row : CsvRow) (hbad : pyInt (pyStrip row.ano) = none) :
    parseCsvRow row = none := by
  unfold parseCsvRow
  dsimp only
  split_ifs with h
  · rfl
  · rw [hbad]

/-- C7: a CSV row whose admission number does not parse as an integer
is excluded from the batch, every well-formed row after it is still
parsed into the batch, and the upload of the resulting batch (no
existing records) writes exactly the surviving records. -/
theorem csv_bad_row_skipped (pre post : List CsvRow) (bad : CsvRow)
    (section_name : String)
    (hbad : pyInt (pyStrip bad.ano) = none) :
    read_csv_file (pre ++ bad :: post) = read_csv_file pre ++ read_csv_file post ∧
    (∀ r ∈ post, ∀ s, parseCsvRow r = some s →
      s ∈ read_csv_file (pre ++ bad :: post)) ∧
    (upload_section_to_firebase [] true section_name
        (read_csv_file (pre ++ bad :: post))).2
      = (read_csv_file pre ++ read_csv_file post).map (uploadWrite section_name) := by
  have hparse : parseCsvRow bad = none := parseCsvRow_none_of_badAno bad hbad
  have h1 : read_csv_file (pre ++ bad :: post)
      = read_csv_file pre ++ read_csv_file post := by
    unfold read_csv_file
    simp [List.filterMap_append, List.filterMap_cons, hparse]
  refine ⟨h1, ?_, ?_⟩
  · intro r hr s hps
    rw [h1]
    refine List.mem_append.mpr (Or.inr ?_)
    unfold read_csv_file
    exact List.mem_filterMap.mpr ⟨r, hr, hps⟩
  · rw [h1]
    unfold upload_section_to_firebase
    have hchk : check_existing_students [] true
        (read_csv_file pre ++ read_csv_file post)
        = read_csv_file pre ++ read_csv_file post := by
      unfold check_existing_students
      rfl
    rw [hchk]
    cases hl : read_csv_file pre ++ read_csv_file post with
    | nil => rfl
    | cons a l => rfl

/-- C7 witness: a malformed middle row is dropped, the later rows
survive and are uploaded. -/
theorem csv_bad_row_skipped_witness :
    (read_csv_file ([⟨"1", "101", "a"⟩] ++ ⟨"2", "1O2", "b"⟩ :: [⟨"3", "103", "c"⟩])
      = read_csv_file [⟨"1", "101", "a"⟩] ++ read_csv_file [⟨"3", "103", "c"⟩] ∧
    (∀ r ∈ [(⟨"3", "103", "c"⟩ : CsvRow)], ∀ s, parseCsvRow r = some s →
      s ∈ read_csv_file ([⟨"1", "101", "a"⟩] ++ ⟨"2", "1O2", "b"⟩ :: [⟨"3", "103", "c"⟩])) ∧
    (upload_section_to_firebase [] true "XI A"
        (read_csv_file ([⟨"1", "101", "a"⟩] ++ ⟨"2", "1O2", "b"⟩ :: [⟨"3", "103", "c"⟩]))).2
      = (read_csv_file [⟨"1", "101", "a"⟩] ++ read_csv_file [⟨"3", "103", "c"⟩]).map
          (uploadWrite "XI A")) :=
  csv_bad_row_skipped [⟨"1", "101", "a"⟩] [⟨"3", "103", "c"⟩] ⟨"2", "1O2", "b"⟩
    "XI A" (by decide)

/-!
### Integrity Validator: C6 -/

/-- C6 counterexample: a store holding student `s1` with `"a"` in its
`sections` while section `"a"`'s `students` list is empty — a
referential-integrity violation — passes `validate_data_integrity`
(it returns pass, reporting nothing), refuting the claim that the
Validator reports every such violation. -/
theorem validator_misses_ref_violation :
    hasRefIntegrityViolation
      ⟨[("s1", [("sections", Json.arr (JsonArr.cons (Json.str "a") JsonArr.nil))])],
       [("a", [("name", Json.str "A"), ("students", Json.arr JsonArr.nil),
               ("teachers", Json.arr JsonArr.nil)])]⟩ = true ∧
    validate_data_integrity
      ⟨[("s1", [("sections", Json.arr (JsonArr.cons (Json.str "a") JsonArr.nil))])],
       [("a", [("name", Json.str "A"), ("students", Json.arr JsonArr.nil),
               ("teachers", Json.arr JsonArr.nil)])]⟩ = true := by
  decide

theorem studentRecordIssues_eq_nil_iff (p : String × Rec) :
    studentRecordIssues p = [] ↔ studentShapeOk p.2 = true := by
  unfold studentRecordIssues studentShapeOk
  cases h : pyGet p.2 "sections" with
  | none => simp
  | some v =>
    cases v with
    | arr xs => cases xs <;> simp
    | null => simp
    | bool b => simp
    | num n => simp
    | str s => simp
    | obj fs => simp

theorem sectionRecordIssues_eq_nil_iff (p : String × Rec) :
    sectionRecordIssues p = [] ↔ sectionShapeOk p.2 = true := by
  unfold sectionRecordIssues sectionShapeOk
  cases h1 : pyGet p.2 "name" <;> cases h2 : pyGet p.2 "students" <;>
    cases h3 : pyGet p.2 "teachers" <;> simp

/-- C6 amended: `validate_data_integrity` checks record shapes only —
it passes exactly when every student record has a present, list-valued,
nonempty `sections` and every section record has `name`, `students` and
`teachers` present; the referential-integrity invariant is not among
its checks, so a violating store with well-shaped records passes. -/
theorem validator_checks_shapes_only (db : DB) :
    validate_data_integrity db = true ↔
      ((∀ p ∈ db.students, studentShapeOk p.2 = true) ∧
       (∀ p ∈ db.sections, sectionShapeOk p.2 = true)) := by
  unfold validate_data_integrity validationIssues
  rw [List.isEmpty_iff, List.append_eq_nil, List.flatMap_eq_nil_iff,
    List.flatMap_eq_nil_iff]
  simp only [studentRecordIssues_eq_nil_iff, sectionRecordIssues_eq_nil_iff]

/-!
### Section creation phase: C8 -/

theorem createCollectedSections_cons (now : String) (gen : Nat → String)
    (db : DB) (i : Nat) (n : Json) (rest : List Json) :
    createCollectedSections now gen db i (n :: rest)
      = if pyTruthy n && !(n == Json.str "default") then
          createCollectedSections now gen (create_section db (gen i) now n) (i + 1) rest
        else createCollectedSections now gen db i rest := rfl

theorem createdSections_cons (now : String) (gen : Nat → String)
    (i : Nat) (n : Json) (rest : List Json) :
    createdSections now gen i (n :: rest)
      = if pyTruthy n && !(n == Json.str "default") then
          (gen i, newSectionRec now n) :: createdSections now gen (i + 1) rest
        else createdSections now gen i rest := rfl

theorem createCollectedSections_spec (now : String) (gen : Nat → String) :
    ∀ (names : List Json) (db : DB) (i : Nat),
      (createCollectedSections now gen db i names).sections
        = db.sections ++ createdSections now gen i names ∧
      (createCollectedSections now gen db i names).students = db.students := by
  intro names
  induction names with
  | nil =>
    intro db i
    simp [createCollectedSections, createdSections]
  | cons n rest ih =>
    intro db i
    rw [createCollectedSections_cons, createdSections_cons]
    by_cases hg : (pyTruthy n && !(n == Json.str "default")) = true
    · rw [if_pos hg, if_pos hg]
      obtain ⟨ih1, ih2⟩ := ih (create_section db (gen i) now n) (i + 1)
      refine ⟨?_, ih2⟩
      rw [ih1]
      unfold create_section
      simp
    · rw [if_neg hg, if_neg hg]
      exact ih db i

theorem createdSections_length (now : String) (gen : Nat → String) :
    ∀ (names : List Json) (i : Nat),
      (createdSections now gen i names).length
        = (names.filter (fun n => pyTruthy n && !(n == Json.str "default"))).length := by
  intro names
  induction names with
  | nil =>
    intro i
    rfl
  | cons n rest ih =>
    intro i
    rw [createdSections_cons]
    by_cases hg : (pyTruthy n && !(n == Json.str "default")) = true
    · rw [if_pos hg]
      simp [List.filter_cons, hg, ih]
    · rw [if_neg hg]
      simp [List.filter_cons, hg, ih]

/-- C8 counterexample: the stored section `"xi_a"` is named `"XI A"` and
sits exactly at the slug the claim derives from the collected legacy
name `"XI A"` (lower-cased, spaces to underscores) — yet after the run
the store holds two sections named `"XI A"`: `create_section` performs
no existence lookup.  And the collected empty name, although different
from `"default"`, is never created (the code also requires truthiness). -/
theorem create_section_no_existence_check :
    sectionsToCreate [("s1", [("section", Json.str "XI A")]),
        ("s2", [("section", Json.str "")])]
      = [Json.str "XI A", Json.str ""] ∧
    countNamed (migrate_to_multisection
        ⟨[("s1", [("section", Json.str "XI A")]), ("s2", [("section", Json.str "")])],
         [("xi_a", [("name", Json.str "XI A"), ("teachers", Json.arr JsonArr.nil),
                    ("students", Json.arr JsonArr.nil)])]⟩
        "t0" (fun n => "gen" ++ toString n)).1.sections (Json.str "XI A") = 2 ∧
    countNamed (migrate_to_multisection
        ⟨[("s1", [("section", Json.str "XI A")]), ("s2", [("section", Json.str "")])],
         [("xi_a", [("name", Json.str "XI A"), ("teachers", Json.arr JsonArr.nil),
                    ("students", Json.arr JsonArr.nil)])]⟩
        "t0" (fun n => "gen" ++ toString n)).1.sections (Json.str "") = 0 := by
  decide

/-- C8 amended: after the iteration the Migrator runs `create_section`
once for every collected legacy value that is truthy and differs from
the sentinel `"default"`, unconditionally: the created records are
appended to the existing section collection whatever it already holds
(no slug lookup), each under the next generated key, so a name whose
section already exists is created a second time. -/
theorem migrator_creates_sections_unconditionally (db : DB) (now : String)
    (gen : Nat → String) (i : Nat) (names : List Json) :
    (createCollectedSections now gen db i names).sections
      = db.sections ++ createdSections now gen i names ∧
    (createCollectedSections now gen db i names).students = db.students ∧
    (createdSections now gen i names).length
      = (names.filter (fun n => pyTruthy n && !(n == Json.str "default"))).length ∧
    (migrate_to_multisection db now gen).1.sections
      = db.sections ++ createdSections now gen 0 (sectionsToCreate db.students) := by
  obtain ⟨h1, h2⟩ := createCollectedSections_spec now gen names db i
  refine ⟨h1, h2, createdSections_length now gen names i, ?_⟩
  unfold migrate_to_multisection
  exact (createCollectedSections_spec now gen (sectionsToCreate db.students)
    (DB.mk (migrateStudents now db.students) db.sections) 0).1

/-!
### Backup/Restore roundtrip: C9

The serializer/parser pair embeds `json.dump`/`json.load`; the claim is
the structural roundtrip `parse (render t) = some t` for every store
tree `t`. -/

theorem hexVal_hexDigitChar (n : Nat) (h : n < 16) :
    hexVal (hexDigitChar n) = some n := by
  interval_cases n <;> decide

theorem digitChar_spec (d : Nat) (h : d < 10) :
    (digitChar d).isDigit = true ∧ (digitChar d).toNat = 48 + d := by
  interval_cases d <;> exact ⟨rfl, rfl⟩

theorem digitChar_ne (d : Nat) (h : d < 10) :
    digitChar d ≠ 'n' ∧ digitChar d ≠ 't' ∧ digitChar d ≠ 'f' ∧
    digitChar d ≠ '"' ∧ digitChar d ≠ '[' ∧ digitChar d ≠ '\x7b' ∧
    digitChar d ≠ ']' ∧ digitChar d ≠ '-' := by
  interval_cases d <;> decide

theorem escapeList_nil : escapeList [] = [] := rfl

theorem escapeList_cons (c : Char) (cs : List Char) :
    escapeList (c :: cs) = escapeChar c ++ escapeList cs := rfl

theorem decodeHex4_spec (h1 h2 h3 h4 : Char) (v1 v2 v3 v4 : Nat)
    (e1 : hexVal h1 = some v1) (e2 : hexVal h2 = some v2)
    (e3 : hexVal h3 = some v3) (e4 : hexVal h4 = some v4) :
    decodeHex4 h1 h2 h3 h4 = some (((v1 * 16 + v2) * 16 + v3) * 16 + v4) := by
  unfold decodeHex4
  rw [e1, e2, e3, e4]

/-- One-step equation of the WF-compiled string-literal parser. -/
theorem parseStringBody_cons (c : Char) (T : List Char) :
    parseStringBody (c :: T) =
      if c = '"' then some ([], T)
      else if c = '\\' then
        match T with
        | [] => none
        | e :: cs2 =>
          if e = 'u' then
            match cs2 with
            | h1 :: h2 :: h3 :: h4 :: cs3 =>
              match decodeHex4 h1 h2 h3 h4 with
              | some n => (parseStringBody cs3).map (fun p => (Char.ofNat n :: p.1, p.2))
              | none => none
            | _ => none
          else
            match unescapeChar e with
            | some d => (parseStringBody cs2).map (fun p => (d :: p.1, p.2))
            | none => none
      else (parseStringBody T).map (fun p => (c :: p.1, p.2)) := by
  rw [parseStringBody.eq_def]

theorem parseStringBody_escape (cs : List Char) (rest : List Char) :
    parseStringBody (escapeList cs ++ '"' :: rest) = some (cs, rest) := by
  induction cs with
  | nil => rw [escapeList_nil, List.nil_append, parseStringBody_cons, if_pos rfl]
  | cons c cs ih =>
    rw [escapeList_cons, List.append_assoc]
    unfold escapeChar
    by_cases h1 : c = '"'
    · subst h1
      rw [if_pos rfl, List.cons_append, List.cons_append, List.nil_append,
        parseStringBody_cons, if_neg (by decide), if_pos rfl]
      show (parseStringBody (escapeList cs ++ '"' :: rest)).map
          (fun p => ('"' :: p.1, p.2)) = some ('"' :: cs, rest)
      rw [ih]
      rfl
    · rw [if_neg h1]
      by_cases h2 : c = '\\'
      · subst h2
        rw [if_pos rfl, List.cons_append, List.cons_append, List.nil_append,
          parseStringBody_cons, if_neg (by decide), if_pos rfl]
        show (parseStringBody (escapeList cs ++ '"' :: rest)).map
            (fun p => ('\\' :: p.1, p.2)) = some ('\\' :: cs, rest)
        rw [ih]
        rfl
      · rw [if_neg h2]
        by_cases h3 : c.toNat < 32
        · rw [if_pos h3]
          have hdh : decodeHex4 '0' '0' (hexDigitChar (c.toNat / 16))
              (hexDigitChar (c.toNat % 16))
              = some (((0 * 16 + 0) * 16 + c.toNat / 16) * 16 + c.toNat % 16) :=
            decodeHex4_spec _ _ _ _ _ _ _ _ rfl rfl
              (hexVal_hexDigitChar _ (by omega)) (hexVal_hexDigitChar _ (by omega))
          rw [show ('\\' :: 'u' :: '0' :: '0' :: hexDigitChar (c.toNat / 16)
                :: hexDigitChar (c.toNat % 16) :: []) ++ (escapeList cs ++ '"' :: rest)
              = '\\' :: 'u' :: '0' :: '0' :: hexDigitChar (c.toNat / 16)
                :: hexDigitChar (c.toNat % 16) :: (escapeList cs ++ '"' :: rest)
              from rfl]
          rw [parseStringBody_cons, if_neg (by decide), if_pos rfl]
          show (match decodeHex4 '0' '0' (hexDigitChar (c.toNat / 16))
                  (hexDigitChar (c.toNat % 16)) with
              | some n => (parseStringBody (escapeList cs ++ '"' :: rest)).map
                  (fun p => (Char.ofNat n :: p.1, p.2))
              | none => none) = some (c :: cs, rest)
          rw [hdh]
          show (parseStringBody (escapeList cs ++ '"' :: rest)).map
              (fun p => (Char.ofNat (((0 * 16 + 0) * 16 + c.toNat / 16) * 16
                + c.toNat % 16) :: p.1, p.2)) = some (c :: cs, rest)
          rw [ih, show ((0 * 16 + 0) * 16 + c.toNat / 16) * 16 + c.toNat % 16
              = c.toNat from by omega, Char.ofNat_toNat]
          rfl
        · rw [if_neg h3]
          rw [show [c] ++ (escapeList cs ++ '"' :: rest)
              = c :: (escapeList cs ++ '"' :: rest) from rfl]
          rw [parseStringBody_cons, if_neg h1, if_neg h2, ih]
          rfl

theorem parseDigits_render (ds : List Nat) (hlt : ∀ d ∈ ds, d < 10)
    (rest : List Char) (hrest : headIsDigit rest = false) :
    parseDigits (ds.map digitChar ++ rest) = (ds, rest) := by
  induction ds with
  | nil =>
    cases rest with
    | nil => simp [parseDigits]
    | cons c cs =>
      simp only [headIsDigit] at hrest
      simp [parseDigits, hrest]
  | cons d ds ih =>
    obtain ⟨hdig, htn⟩ := digitChar_spec d (hlt d (List.mem_cons_self d ds))
    simp only [List.map_cons, List.cons_append]
    simp only [parseDigits, hdig, if_true]
    rw [ih (fun e he => hlt e (List.mem_cons_of_mem d he)), htn]
    simp

theorem renderNat_spec (n : Nat) :
    ∃ ds, renderNat n = ds.map digitChar ∧ ds ≠ [] ∧ (∀ d ∈ ds, d < 10) ∧
      natFromDigits ds = n := by
  by_cases h0 : n = 0
  · refine ⟨[0], ?_, by decide, by decide, ?_⟩
    · rw [h0]
      rfl
    · rw [h0]
      simp [natFromDigits, Nat.ofDigits]
  · refine ⟨(Nat.digits 10 n).reverse, ?_, ?_, ?_, ?_⟩
    · unfold renderNat
      rw [if_neg h0, List.map_reverse]
    · simp [Nat.digits_ne_nil_iff_ne_zero, h0]
    · intro d hd
      exact Nat.digits_lt_base (by norm_num) (List.mem_reverse.mp hd)
    · unfold natFromDigits
      rw [List.reverse_reverse, Nat.ofDigits_digits]

theorem parseIntLit_render (i : Int) (rest : List Char)
    (hrest : headIsDigit rest = false) :
    parseIntLit (renderInt i ++ rest) = some (i, rest) := by
  obtain ⟨ds, hds, hne, hlt, hval⟩ := renderNat_spec i.natAbs
  cases ds with
  | nil => exact absurd rfl hne
  | cons d es =>
    have hd10 : d < 10 := hlt d (List.mem_cons_self d es)
    have hpd : parseDigits ((d :: es).map digitChar ++ rest) = (d :: es, rest) :=
      parseDigits_render (d :: es) hlt rest hrest
    by_cases hi : i < 0
    · have hri : renderInt i = '-' :: ((d :: es).map digitChar) := by
        unfold renderInt
        rw [if_pos hi, hds]
      rw [hri, List.cons_append]
      simp only [parseIntLit]
      rw [if_pos trivial, hpd]
      simp only [hval]
      have hneg : -(i.natAbs : Int) = i := by omega
      rw [hneg]
    · have hri : renderInt i = digitChar d :: (es.map digitChar) := by
        unfold renderInt
        rw [if_neg hi, hds]
        rfl
      rw [hri, List.cons_append]
      obtain ⟨_, _, _, _, _, _, _, hnm⟩ := digitChar_ne d hd10
      simp only [parseIntLit]
      rw [if_neg hnm]
      rw [show digitChar d :: (es.map digitChar ++ rest)
          = (d :: es).map digitChar ++ rest from rfl]
      rw [hpd]
      simp only [hval]
      have hpos : ((i.natAbs : Int)) = i := by omega
      rw [hpos]

theorem jsizeV_pos (j : Json) : 1 ≤ jsizeV j := by
  cases j with
  | null => exact Nat.le_refl 1
  | bool b => exact Nat.le_refl 1
  | num i => exact Nat.le_refl 1
  | str s => exact Nat.le_refl 1
  | arr xs =>
    cases xs with
    | nil => exact Nat.le_refl 1
    | cons x t =>
      show 1 ≤ 1 + jsizeV x + jsizeA t
      omega
  | obj fs =>
    cases fs with
    | nil => exact Nat.le_refl 1
    | cons k v t =>
      show 1 ≤ 1 + jsizeV v + jsizeO t
      omega

theorem jsizeA_pos (xs : JsonArr) : 1 ≤ jsizeA xs := by
  cases xs with
  | nil => exact Nat.le_refl 1
  | cons x t =>
    show 1 ≤ 1 + jsizeV x + jsizeA t
    omega

theorem jsizeO_pos (fs : JsonObj) : 1 ≤ jsizeO fs := by
  cases fs with
  | nil => exact Nat.le_refl 1
  | cons k v t =>
    show 1 ≤ 1 + jsizeV v + jsizeO t
    omega

theorem headIsDigit_renderArrTail (xs : JsonArr) (rest : List Char) :
    headIsDigit (renderArrTail xs ++ ']' :: rest) = false := by
  cases xs <;> rfl

theorem headIsDigit_renderObjTail (fs : JsonObj) (rest : List Char) :
    headIsDigit (renderObjTail fs ++ '\x7d' :: rest) = false := by
  cases fs <;> rfl

theorem renderJson_head (j : Json) :
    ∃ h t, renderJson j = h :: t ∧ h ≠ ']' := by
  cases j with
  | null => exact ⟨'n', _, rfl, by decide⟩
  | bool b =>
    cases b with
    | false => exact ⟨'f', _, rfl, by decide⟩
    | true => exact ⟨'t', _, rfl, by decide⟩
  | num i =>
    obtain ⟨ds, hds, hne, hlt, _⟩ := renderNat_spec i.natAbs
    cases ds with
    | nil => exact absurd rfl hne
    | cons d es =>
      by_cases hi : i < 0
      · refine ⟨'-', renderNat i.natAbs, ?_, by decide⟩
        show renderInt i = _
        unfold renderInt
        rw [if_pos hi]
      · refine ⟨digitChar d, es.map digitChar, ?_,
          (digitChar_ne d (hlt d (List.mem_cons_self d es))).2.2.2.2.2.2.1⟩
        show renderInt i = _
        unfold renderInt
        rw [if_neg hi, hds]
        rfl
  | str s => exact ⟨'"', _, rfl, by decide⟩
  | arr xs =>
    cases xs with
    | nil => exact ⟨'[', _, rfl, by decide⟩
    | cons x t => exact ⟨'[', _, rfl, by decide⟩
  | obj fs =>
    cases fs with
    | nil => exact ⟨'\x7b', _, rfl, by decide⟩
    | cons k v t => exact ⟨'\x7b', _, rfl, by decide⟩

/-- One-step equation of the value parser on a nonempty input. -/
theorem parseVal_cons (fuel : Nat) (c : Char) (cs : List Char) :
    parseVal (fuel + 1) (c :: cs) =
      (if c = 'n' then
        match cs with
        | 'u' :: 'l' :: 'l' :: rest => some (Json.null, rest)
        | _ => none
      else if c = 't' then
        match cs with
        | 'r' :: 'u' :: 'e' :: rest => some (Json.bool true, rest)
        | _ => none
      else if c = 'f' then
        match cs with
        | 'a' :: 'l' :: 's' :: 'e' :: rest => some (Json.bool false, rest)
        | _ => none
      else if c = '"' then
        (parseStringBody cs).map (fun p => (Json.str (String.mk p.1), p.2))
      else if c = '[' then
        match cs with
        | [] => none
        | d :: ds =>
          if d = ']' then some (Json.arr JsonArr.nil, ds)
          else
            match parseVal fuel (d :: ds) with
            | some (v, rest2) =>
              match parseArrTail fuel rest2 with
              | some (vs, rest3) => some (Json.arr (JsonArr.cons v vs), rest3)
              | none => none
            | none => none
      else if c = '\x7b' then
        match cs with
        | '\x7d' :: rest => some (Json.obj JsonObj.nil, rest)
        | '"' :: rest =>
          match parseStringBody rest with
          | some (kcs, rest2) =>
            match rest2 with
            | ':' :: rest3 =>
              match parseVal fuel rest3 with
              | some (v, rest4) =>
                match parseObjTail fuel rest4 with
                | some (fs, rest5) =>
                  some (Json.obj (JsonObj.cons (String.mk kcs) v fs), rest5)
                | none => none
              | none => none
            | _ => none
          | none => none
        | _ => none
      else
        (parseIntLit (c :: cs)).map (fun p => (Json.num p.1, p.2))) := rfl

theorem parseVal_num (f : Nat) (i : Int) (rest : List Char)
    (hrest : headIsDigit rest = false) :
    parseVal (f + 1) (renderInt i ++ rest) = some (Json.num i, rest) := by
  have hil := parseIntLit_render i rest hrest
  obtain ⟨ds, hds, hne, hlt, hval⟩ := renderNat_spec i.natAbs
  cases ds with
  | nil => exact absurd rfl hne
  | cons d es =>
    have hd10 := hlt d (List.mem_cons_self d es)
    obtain ⟨hn1, hn2, hn3, hn4, hn5, hn6, _, _⟩ := digitChar_ne d hd10
    by_cases hi : i < 0
    · have hri : renderInt i = '-' :: ((d :: es).map digitChar) := by
        unfold renderInt
        rw [if_pos hi, hds]
      rw [hri] at hil ⊢
      rw [List.cons_append] at hil ⊢
      rw [parseVal_cons, if_neg (by decide), if_neg (by decide), if_neg (by decide),
        if_neg (by decide), if_neg (by decide), if_neg (by decide), hil]
      rfl
    · have hri : renderInt i = digitChar d :: (es.map digitChar) := by
        unfold renderInt
        rw [if_neg hi, hds]
        rfl
      rw [hri] at hil ⊢
      rw [List.cons_append] at hil ⊢
      rw [parseVal_cons, if_neg hn1, if_neg hn2, if_neg hn3, if_neg hn4,
        if_neg hn5, if_neg hn6, hil]
      rfl

theorem parseVal_str (f : Nat) (s : String) (rest : List Char) :
    parseVal (f + 1) (renderString s ++ rest) = some (Json.str s, rest) := by
  have hshape : renderString s ++ rest = '"' :: (escapeList s.data ++ '"' :: rest) := by
    unfold renderString
    rw [List.cons_append, List.append_assoc]
    rfl
  rw [hshape, parseVal_cons, if_neg (by decide), if_neg (by decide),
    if_neg (by decide), if_pos rfl, parseStringBody_escape]
  rfl

mutual

theorem parseVal_render : ∀ (j : Json) (fuel : Nat) (rest : List Char),
    jsizeV j ≤ fuel → headIsDigit rest = false →
    parseVal fuel (renderJson j ++ rest) = some (j, rest)
  | Json.null, fuel, rest, hf, _ => by
    cases fuel with
    | zero => exact absurd ((jsizeV_pos _).trans hf) (by decide)
    | succ f => rfl
  | Json.bool true, fuel, rest, hf, _ => by
    cases fuel with
    | zero => exact absurd ((jsizeV_pos _).trans hf) (by decide)
    | succ f => rfl
  | Json.bool false, fuel, rest, hf, _ => by
    cases fuel with
    | zero => exact absurd ((jsizeV_pos _).trans hf) (by decide)
    | succ f => rfl
  | Json.num i, fuel, rest, hf, hr => by
    cases fuel with
    | zero => exact absurd ((jsizeV_pos _).trans hf) (by decide)
    | succ f => exact parseVal_num f i rest hr
  | Json.str s, fuel, rest, hf, _ => by
    cases fuel with
    | zero => exact absurd ((jsizeV_pos _).trans hf) (by decide)
    | succ f => exact parseVal_str f s rest
  | Json.arr JsonArr.nil, fuel, rest, hf, _ => by
    cases fuel with
    | zero => exact absurd ((jsizeV_pos _).trans hf) (by decide)
    | succ f => rfl
  | Json.arr (JsonArr.cons x xs), fuel, rest, hf, hr => by
    cases fuel with
    | zero => exact absurd ((jsizeV_pos _).trans hf) (by decide)
    | succ f =>
      have hsz : 1 + jsizeV x + jsizeA xs ≤ f + 1 := hf
      have hshape : renderJson (Json.arr (JsonArr.cons x xs)) ++ rest
          = '[' :: (renderJson x ++ (renderArrTail xs ++ ']' :: rest)) := by
        show '[' :: ((renderJson x ++ renderArrTail xs ++ [']']) ++ rest) = _
        rw [List.append_assoc, List.append_assoc]
        rfl
      rw [hshape, parseVal_cons, if_neg (by decide), if_neg (by decide),
        if_neg (by decide), if_neg (by decide), if_pos rfl]
      obtain ⟨h0, t0, hx, hne⟩ := renderJson_head x
      rw [hx, List.cons_append]
      show (if h0 = ']' then some (Json.arr JsonArr.nil, t0 ++ (renderArrTail xs ++ ']' :: rest))
          else
            match parseVal f (h0 :: (t0 ++ (renderArrTail xs ++ ']' :: rest))) with
            | some (v, rest2) =>
              match parseArrTail f rest2 with
              | some (vs, rest3) => some (Json.arr (JsonArr.cons v vs), rest3)
              | none => none
            | none => none) = some (Json.arr (JsonArr.cons x xs), rest)
      rw [if_neg hne, ← List.cons_append, ← hx,
        parseVal_render x f (renderArrTail xs ++ ']' :: rest) (by omega)
          (headIsDigit_renderArrTail xs rest)]
      show (match parseArrTail f (renderArrTail xs ++ ']' :: rest) with
          | some (vs, rest3) => some (Json.arr (JsonArr.cons x vs), rest3)
          | none => none) = some (Json.arr (JsonArr.cons x xs), rest)
      rw [parseArrTail_render xs f rest (by omega)]
  | Json.obj JsonObj.nil, fuel, rest, hf, _ => by
    cases fuel with
    | zero => exact absurd ((jsizeV_pos _).trans hf) (by decide)
    | succ f => rfl
  | Json.obj (JsonObj.cons k v fs), fuel, rest, hf, hr => by
    cases fuel with
    | zero => exact absurd ((jsizeV_pos _).trans hf) (by decide)
    | succ f =>
      have hsz : 1 + jsizeV v + jsizeO fs ≤ f + 1 := hf
      have hshape : renderJson (Json.obj (JsonObj.cons k v fs)) ++ rest
          = '\x7b' :: ('"' :: (escapeList k.data
              ++ '"' :: (':' :: (renderJson v ++ (renderObjTail fs ++ '\x7d' :: rest))))) := by
        show '\x7b' :: ((renderString k ++ ':' :: renderJson v ++ renderObjTail fs
            ++ ['\x7d']) ++ rest) = _
        unfold renderString
        rw [List.append_assoc, List.append_assoc, List.append_assoc,
          List.cons_append, List.append_assoc]
        rfl
      rw [hshape, parseVal_cons, if_neg (by decide), if_neg (by decide),
        if_neg (by decide), if_neg (by decide), if_neg (by decide), if_pos rfl]
      show (match parseStringBody (escapeList k.data
            ++ '"' :: (':' :: (renderJson v ++ (renderObjTail fs ++ '\x7d' :: rest)))) with
          | some (kcs, rest2) =>
            match rest2 with
            | ':' :: rest3 =>
              match parseVal f rest3 with
              | some (w, rest4) =>
                match parseObjTail f rest4 with
                | some (gs, rest5) =>
                  some (Json.obj (JsonObj.cons (String.mk kcs) w gs), rest5)
                | none => none
              | none => none
            | _ => none
          | none => none) = some (Json.obj (JsonObj.cons k v fs), rest)
      rw [parseStringBody_escape]
      show (match parseVal f (renderJson v ++ (renderObjTail fs ++ '\x7d' :: rest)) with
          | some (w, rest4) =>
            match parseObjTail f rest4 with
            | some (gs, rest5) =>
              some (Json.obj (JsonObj.cons (String.mk k.data) w gs), rest5)
            | none => none
          | none => none) = some (Json.obj (JsonObj.cons k v fs), rest)
      rw [parseVal_render v f (renderObjTail fs ++ '\x7d' :: rest) (by omega)
        (headIsDigit_renderObjTail fs rest)]
      show (match parseObjTail f (renderObjTail fs ++ '\x7d' :: rest) with
          | some (gs, rest5) =>
            some (Json.obj (JsonObj.cons (String.mk k.data) v gs), rest5)
          | none => none) = some (Json.obj (JsonObj.cons k v fs), rest)
      rw [parseObjTail_render fs f rest (by omega)]

theorem parseArrTail_render : ∀ (xs : JsonArr) (fuel : Nat) (rest : List Char),
    jsizeA xs ≤ fuel →
    parseArrTail fuel (renderArrTail xs ++ ']' :: rest) = some (xs, rest)
  | JsonArr.nil, fuel, rest, hf => by
    cases fuel with
    | zero => exact absurd ((jsizeA_pos _).trans hf) (by decide)
    | succ f => rfl
  | JsonArr.cons x xs, fuel, rest, hf => by
    cases fuel with
    | zero => exact absurd ((jsizeA_pos _).trans hf) (by decide)
    | succ f =>
      have hsz : 1 + jsizeV x + jsizeA xs ≤ f + 1 := hf
      have hshape : renderArrTail (JsonArr.cons x xs) ++ ']' :: rest
          = ',' :: (renderJson x ++ (renderArrTail xs ++ ']' :: rest)) := by
        show ',' :: ((renderJson x ++ renderArrTail xs) ++ ']' :: rest) = _
        rw [List.append_assoc]
      rw [hshape]
      show (match parseVal f (renderJson x ++ (renderArrTail xs ++ ']' :: rest)) with
          | some (v, rest2) =>
            match parseArrTail f rest2 with
            | some (vs, rest3) => some (JsonArr.cons v vs, rest3)
            | none => none
          | none => none) = some (JsonArr.cons x xs, rest)
      rw [parseVal_render x f (renderArrTail xs ++ ']' :: rest) (by omega)
        (headIsDigit_renderArrTail xs rest)]
      show (match parseArrTail f (renderArrTail xs ++ ']' :: rest) with
          | some (vs, rest3) => some (JsonArr.cons x vs, rest3)
          | none => none) = some (JsonArr.cons x xs, rest)
      rw [parseArrTail_render xs f rest (by omega)]

theorem parseObjTail_render : ∀ (fs : JsonObj) (fuel : Nat) (rest : List Char),
    jsizeO fs ≤ fuel →
    parseObjTail fuel (renderObjTail fs ++ '\x7d' :: rest) = some (fs, rest)
  | JsonObj.nil, fuel, rest, hf => by
    cases fuel with
    | zero => exact absurd ((jsizeO_pos _).trans hf) (by decide)
    | succ f => rfl
  | JsonObj.cons k v fs, fuel, rest, hf => by
    cases fuel with
    | zero => exact absurd ((jsizeO_pos _).trans hf) (by decide)
    | succ f =>
      have hsz : 1 + jsizeV v + jsizeO fs ≤ f + 1 := hf
      have hshape : renderObjTail (JsonObj.cons k v fs) ++ '\x7d' :: rest
          = ',' :: ('"' :: (escapeList k.data
              ++ '"' :: (':' :: (renderJson v ++ (renderObjTail fs ++ '\x7d' :: rest))))) := by
        show ',' :: ((renderString k ++ ':' :: renderJson v ++ renderObjTail fs)
            ++ '\x7d' :: rest) = _
        unfold renderString
        rw [List.append_assoc, List.append_assoc, List.cons_append, List.append_assoc]
        rfl
      rw [hshape]
      show (match parseStringBody (escapeList k.data
            ++ '"' :: (':' :: (renderJson v ++ (renderObjTail fs ++ '\x7d' :: rest)))) with
          | some (kcs, rest2) =>
            match rest2 with
            | ':' :: rest3 =>
              match parseVal f rest3 with
              | some (w, rest4) =>
                match parseObjTail f rest4 with
                | some (gs, rest5) => some (JsonObj.cons (String.mk kcs) w gs, rest5)
                | none => none
              | none => none
            | _ => none
          | none => none) = some (JsonObj.cons k v fs, rest)
      rw [parseStringBody_escape]
      show (match parseVal f (renderJson v ++ (renderObjTail fs ++ '\x7d' :: rest)) with
          | some (w, rest4) =>
            match parseObjTail f rest4 with
            | some (gs, rest5) => some (JsonObj.cons (String.mk k.data) w gs, rest5)
            | none => none
          | none => none) = some (JsonObj.cons k v fs, rest)
      rw [parseVal_render v f (renderObjTail fs ++ '\x7d' :: rest) (by omega)
        (headIsDigit_renderObjTail fs rest)]
      show (match parseObjTail f (renderObjTail fs ++ '\x7d' :: rest) with
          | some (gs, rest5) => some (JsonObj.cons (String.mk k.data) v gs, rest5)
          | none => none) = some (JsonObj.cons k v fs, rest)
      rw [parseObjTail_render fs f rest (by omega)]

end

mutual

theorem jsizeV_le_render_length : ∀ j : Json, jsizeV j ≤ (renderJson j).length
  | Json.null => by decide
  | Json.bool b => by cases b <;> decide
  | Json.num i => by
    show 1 ≤ (renderInt i).length
    obtain ⟨ds, hds, hne, _, _⟩ := renderNat_spec i.natAbs
    unfold renderInt
    by_cases hi : i < 0
    · rw [if_pos hi]
      simp
    · rw [if_neg hi, hds]
      cases ds with
      | nil => exact absurd rfl hne
      | cons d es =>
        simp only [List.map_cons, List.length_cons]
        omega
  | Json.str s => by
    show 1 ≤ (renderString s).length
    unfold renderString
    simp
  | Json.arr JsonArr.nil => by decide
  | Json.arr (JsonArr.cons x xs) => by
    have h1 := jsizeV_le_render_length x
    have h2 := jsizeA_le_renderTail_length xs
    show 1 + jsizeV x + jsizeA xs
      ≤ ('[' :: (renderJson x ++ renderArrTail xs ++ [']'])).length
    simp only [List.length_cons, List.length_append, List.length_singleton]
    omega
  | Json.obj JsonObj.nil => by decide
  | Json.obj (JsonObj.cons k v fs) => by
    have h1 := jsizeV_le_render_length v
    have h2 := jsizeO_le_renderTail_length fs
    show 1 + jsizeV v + jsizeO fs
      ≤ ('\x7b' :: (renderString k ++ ':' :: renderJson v ++ renderObjTail fs
          ++ ['\x7d'])).length
    simp only [List.length_cons, List.length_append, List.length_singleton]
    omega

theorem jsizeA_le_renderTail_length : ∀ xs : JsonArr,
    jsizeA xs ≤ (renderArrTail xs).length + 1
  | JsonArr.nil => by decide
  | JsonArr.cons x xs => by
    have h1 := jsizeV_le_render_length x
    have h2 := jsizeA_le_renderTail_length xs
    show 1 + jsizeV x + jsizeA xs ≤ (',' :: (renderJson x ++ renderArrTail xs)).length + 1
    simp only [List.length_cons, List.length_append]
    omega

theorem jsizeO_le_renderTail_length : ∀ fs : JsonObj,
    jsizeO fs ≤ (renderObjTail fs).length + 1
  | JsonObj.nil => by decide
  | JsonObj.cons k v fs => by
    have h1 := jsizeV_le_render_length v
    have h2 := jsizeO_le_renderTail_length fs
    show 1 + jsizeV v + jsizeO fs
      ≤ (',' :: (renderString k ++ ':' :: renderJson v ++ renderObjTail fs)).length + 1
    simp only [List.length_cons, List.length_append]
    omega

end

/-- C9: Backup followed by Restore with no intervening writes
reproduces a structurally identical store tree — for every store state
`t`, the artifact `backup_database` serializes is deserialized by
`restore_database` back to exactly `t`, so the single root `PUT` of the
restore writes a tree structurally equal to the one backed up. -/
theorem backup_restore_roundtrip (t : Json) :
    restore_database (backup_database t) = some t := by
  unfold restore_database backup_database parseDocument
  have hparse := parseVal_render t (renderJson t).length []
    (jsizeV_le_render_length t) rfl
  rw [List.append_nil] at hparse
  show (match parseVal (renderJson t).length (renderJson t) with
      | some (j, []) => some j
      | _ => none) = some t
  rw [hparse]

end Stutra
